import Mathlib

/-!
ShareSpace database provisioning (`scripts/mongo-init.js`).

The script is declarative: it selects a database, creates one application
principal, three collections with `$jsonSchema` validators, and twenty
indexes.  This development embeds

* the script itself, statement by statement (`script`), with the three
  validator documents (`usersSchema`, `mentorshipRequestsSchema`,
  `mentorshipConnectionsSchema`) transcribed keyword by keyword;
* the meaning the storage engine gives to the keywords the script uses:
  BSON values and types, `$jsonSchema` evaluation, the regular expression of
  the `pattern` keyword, unique and sparse index keys, and document insertion,
  both against the validator and the declared indexes alone
  (`Collection.insert`) and with the built-in unique index on `_id`
  (`Collection.insertOne`).

The properties of the data model are then proved about the collections the
script leaves behind.
-/

namespace ShareSpace

/-! ## BSON values -/

/-- The BSON type names accepted by the `bsonType` keyword. -/
inductive BsonType
  | double | string | object | array | binData | undefined | objectId | bool
  | date | null | regex | dbPointer | javascript | symbol | javascriptWithScope
  | int | timestamp | long | decimal | minKey | maxKey
  deriving DecidableEq, Repr

/-- Payload of a floating-point BSON number (`double` in base 2, `decimal` in
base 10): a finite value `mant * base ^ exp`, or one of the specials. -/
inductive FloatVal
  | finite (mant : Int) (exp : Int)
  | posInf
  | negInf
  | nan
  deriving DecidableEq, Repr

/-- A BSON value.  A document is the field list of an `object`; field order is
kept and a repeated field name is resolved to its first occurrence. -/
inductive BVal
  | double (x : FloatVal)
  | string (s : String)
  | object (fields : List (String × BVal))
  | array (elems : List BVal)
  | binData (subtype : Nat) (bytes : List Nat)
  | undefined
  | objectId (id : Nat)
  | bool (b : Bool)
  | date (millis : Int)
  | null
  | regex (source : String) (flags : String)
  | dbPointer (ns : String) (id : Nat)
  | javascript (code : String)
  | symbol (s : String)
  | javascriptWithScope (code : String) (scope : List (String × BVal))
  | int (n : Int)
  | timestamp (t : Nat) (i : Nat)
  | long (n : Int)
  | decimal (x : FloatVal)
  | minKey
  | maxKey

/-- A stored document: its top-level fields in order. -/
abbrev Doc := List (String × BVal)

/-- The BSON type of a value. -/
def BVal.bsonType : BVal → BsonType
  | .double _ => .double
  | .string _ => .string
  | .object _ => .object
  | .array _ => .array
  | .binData _ _ => .binData
  | .undefined => .undefined
  | .objectId _ => .objectId
  | .bool _ => .bool
  | .date _ => .date
  | .null => .null
  | .regex _ _ => .regex
  | .dbPointer _ _ => .dbPointer
  | .javascript _ => .javascript
  | .symbol _ => .symbol
  | .javascriptWithScope _ _ => .javascriptWithScope
  | .int _ => .int
  | .timestamp _ _ => .timestamp
  | .long _ => .long
  | .decimal _ => .decimal
  | .minKey => .minKey
  | .maxKey => .maxKey

/-- The value of field `name` of a document, when the field is present. -/
def getField (d : Doc) (name : String) : Option BVal :=
  d.lookup name

/-! ### Numbers

The four numeric BSON types are compared by numeric value, whatever their
type. -/

/-- An extended rational: `num / den` with `den` positive, or a special. -/
inductive NumVal
  | fin (num : Int) (den : Nat)
  | posInf
  | negInf
  | nan
  deriving DecidableEq, Repr

/-- The number denoted by a floating-point payload in the given base. -/
def FloatVal.toNum (base : Nat) : FloatVal → NumVal
  | .finite m e =>
    if 0 ≤ e then .fin (m * (base ^ e.toNat : Nat)) 1 else .fin m (base ^ (-e).toNat)
  | .posInf => .posInf
  | .negInf => .negInf
  | .nan => .nan

/-- The number denoted by a BSON value of numeric type. -/
def BVal.toNum : BVal → Option NumVal
  | .int n => some (.fin n 1)
  | .long n => some (.fin n 1)
  | .double x => some (x.toNum 2)
  | .decimal x => some (x.toNum 10)
  | _ => none

/-- Numeric order; `nan` is below and above nothing. -/
def NumVal.le : NumVal → NumVal → Bool
  | .nan, _ => false
  | _, .nan => false
  | .negInf, _ => true
  | _, .posInf => true
  | .fin a b, .fin c d => decide (a * (d : Int) ≤ c * (b : Int))
  | _, _ => false

/-- Numeric equality; `nan` equals itself, as in the engine's comparison of
stored values. -/
def NumVal.eq : NumVal → NumVal → Bool
  | .nan, .nan => true
  | .posInf, .posInf => true
  | .negInf, .negInf => true
  | .fin a b, .fin c d => decide (a * (d : Int) = c * (b : Int))
  | _, _ => false

/-! ### Equality of stored values

Used by the `enum` keyword and by unique indexes: numbers are equal when they
denote the same number, everything else when type and content agree. -/

mutual
/-- Equality of two BSON values as the engine compares them. -/
def bsonEq : BVal → BVal → Bool
  | .double x, b =>
    match b.toNum with
    | some y => NumVal.eq (x.toNum 2) y
    | none => false
  | .decimal x, b =>
    match b.toNum with
    | some y => NumVal.eq (x.toNum 10) y
    | none => false
  | .int n, b =>
    match b.toNum with
    | some y => NumVal.eq (.fin n 1) y
    | none => false
  | .long n, b =>
    match b.toNum with
    | some y => NumVal.eq (.fin n 1) y
    | none => false
  | .string s, b => match b with
    | .string t => s == t
    | _ => false
  | .object fs, b => match b with
    | .object gs => bsonEqFields fs gs
    | _ => false
  | .array xs, b => match b with
    | .array ys => bsonEqElems xs ys
    | _ => false
  | .binData s bs, b => match b with
    | .binData t cs => s == t && bs == cs
    | _ => false
  | .undefined, b => match b with
    | .undefined => true
    | _ => false
  | .objectId i, b => match b with
    | .objectId j => i == j
    | _ => false
  | .bool x, b => match b with
    | .bool y => x == y
    | _ => false
  | .date x, b => match b with
    | .date y => x == y
    | _ => false
  | .null, b => match b with
    | .null => true
    | _ => false
  | .regex s f, b => match b with
    | .regex t g => s == t && f == g
    | _ => false
  | .dbPointer n i, b => match b with
    | .dbPointer m j => n == m && i == j
    | _ => false
  | .javascript c, b => match b with
    | .javascript e => c == e
    | _ => false
  | .symbol s, b => match b with
    | .symbol t => s == t
    | _ => false
  | .javascriptWithScope c fs, b => match b with
    | .javascriptWithScope e gs => c == e && bsonEqFields fs gs
    | _ => false
  | .timestamp t i, b => match b with
    | .timestamp u j => t == u && i == j
    | _ => false
  | .minKey, b => match b with
    | .minKey => true
    | _ => false
  | .maxKey, b => match b with
    | .maxKey => true
    | _ => false
/-- Field-by-field equality of two documents, in order. -/
def bsonEqFields : List (String × BVal) → List (String × BVal) → Bool
  | [], [] => true
  | (k, v) :: fs, (l, w) :: gs => k == l && bsonEq v w && bsonEqFields fs gs
  | _, _ => false
/-- Element-by-element equality of two arrays. -/
def bsonEqElems : List BVal → List BVal → Bool
  | [], [] => true
  | v :: xs, w :: ys => bsonEq v w && bsonEqElems xs ys
  | _, _ => false
end

/-! ## Regular expressions of the `pattern` keyword -/

/-- The anchor-free part of a regular expression. -/
inductive Regex
  | fail
  | eps
  | cls (ranges : List (Char × Char))
  | seq (a b : Regex)
  | alt (a b : Regex)
  | star (a : Regex)
  deriving Repr

/-- One character, written `c`. -/
def Regex.chr (c : Char) : Regex := .cls [(c, c)]

/-- The repetition `r+`. -/
def Regex.plus (r : Regex) : Regex := .seq r (.star r)

/-- The repetition `r{n,}`. -/
def Regex.atLeast : Nat → Regex → Regex
  | 0, r => .star r
  | n + 1, r => .seq r (Regex.atLeast n r)

/-- Membership of a character in a bracket class given by inclusive ranges. -/
def inClass (ranges : List (Char × Char)) (c : Char) : Bool :=
  ranges.any (fun r => decide (r.1.toNat ≤ c.toNat) && decide (c.toNat ≤ r.2.toNat))

/-- Whether the expression matches the empty string. -/
def Regex.nullable : Regex → Bool
  | .fail => false
  | .eps => true
  | .cls _ => false
  | .seq a b => a.nullable && b.nullable
  | .alt a b => a.nullable || b.nullable
  | .star _ => true

/-- The residual expression after reading the character `c`. -/
def Regex.deriv (c : Char) : Regex → Regex
  | .fail => .fail
  | .eps => .fail
  | .cls rs => if inClass rs c then .eps else .fail
  | .seq a b =>
    if a.nullable then .alt (.seq (a.deriv c) b) (b.deriv c) else .seq (a.deriv c) b
  | .alt a b => .alt (a.deriv c) (b.deriv c)
  | .star a => .seq (a.deriv c) (.star a)

/-- Whether the expression matches exactly the given characters. -/
def Regex.matchesAll : Regex → List Char → Bool
  | r, [] => r.nullable
  | r, c :: cs => (r.deriv c).matchesAll cs

/-- A pattern: an anchor-free body with an optional `^` in front and an
optional `$` behind. -/
structure Pattern where
  anchoredStart : Bool
  body : Regex
  anchoredEnd : Bool
  deriving Repr

/-- The ends a match may have in `cs`: with `$`, the end of the subject or the
position before a final newline; without, any position. -/
def matchEnds (anchoredEnd : Bool) (cs : List Char) : List (List Char) :=
  if anchoredEnd then
    (if cs.getLast? = some (Char.ofNat 10) then [cs, cs.dropLast] else [cs])
  else cs.inits

/-- Whether a match of the pattern starts at the beginning of `cs`. -/
def Pattern.matchesFrom (p : Pattern) (cs : List Char) : Bool :=
  (matchEnds p.anchoredEnd cs).any (fun pre => p.body.matchesAll pre)

/-- Whether the pattern is found in the string (a search, as the `pattern`
keyword does; the anchors of the pattern itself pin the match). -/
def Pattern.test (p : Pattern) (s : String) : Bool :=
  if p.anchoredStart then p.matchesFrom s.data
  else s.data.tails.any (fun suf => p.matchesFrom suf)

/-! ## `$jsonSchema` -/

/-- The non-recursive keywords of a schema node, each optional. -/
structure Keywords where
  bsonType : Option BsonType := none
  required : List String := []
  minLength : Option Nat := none
  maxLength : Option Nat := none
  pattern : Option Pattern := none
  enum : Option (List BVal) := none
  minItems : Option Nat := none
  minimum : Option Int := none
  maximum : Option Int := none
  description : String := ""

/-- A schema node: its keywords, its `properties` and its `items`. -/
inductive Schema
  | node (kw : Keywords) (properties : List (String × Schema)) (items : Option Schema)

/-- Keyword `bsonType`. -/
def checkBsonType (t : Option BsonType) (v : BVal) : Bool :=
  match t with
  | none => true
  | some ty => decide (v.bsonType = ty)

/-- Keyword `required`: applies to objects, every listed field is present. -/
def checkRequired (names : List String) (v : BVal) : Bool :=
  match v with
  | .object fs => names.all (fun n => (getField fs n).isSome)
  | _ => true

/-- Keyword `minLength`: applies to strings, counted in code points. -/
def checkMinLength (m : Option Nat) (v : BVal) : Bool :=
  match m, v with
  | some n, .string s => decide (n ≤ s.length)
  | _, _ => true

/-- Keyword `maxLength`: applies to strings, counted in code points. -/
def checkMaxLength (m : Option Nat) (v : BVal) : Bool :=
  match m, v with
  | some n, .string s => decide (s.length ≤ n)
  | _, _ => true

/-- Keyword `pattern`: applies to strings. -/
def checkPattern (p : Option Pattern) (v : BVal) : Bool :=
  match p, v with
  | some pat, .string s => pat.test s
  | _, _ => true

/-- Keyword `enum`: the value equals one of the listed values. -/
def checkEnum (e : Option (List BVal)) (v : BVal) : Bool :=
  match e with
  | none => true
  | some vs => vs.any (fun x => bsonEq x v)

/-- Keyword `minItems`: applies to arrays. -/
def checkMinItems (m : Option Nat) (v : BVal) : Bool :=
  match m, v with
  | some n, .array xs => decide (n ≤ xs.length)
  | _, _ => true

/-- Keyword `minimum`: applies to numbers. -/
def checkMinimum (m : Option Int) (v : BVal) : Bool :=
  match m, v.toNum with
  | some lo, some x => NumVal.le (.fin lo 1) x
  | _, _ => true

/-- Keyword `maximum`: applies to numbers. -/
def checkMaximum (m : Option Int) (v : BVal) : Bool :=
  match m, v.toNum with
  | some hi, some x => NumVal.le x (.fin hi 1)
  | _, _ => true

/-- All non-recursive keywords of a node. -/
def checkKeywords (kw : Keywords) (v : BVal) : Bool :=
  checkBsonType kw.bsonType v && checkRequired kw.required v &&
  checkMinLength kw.minLength v && checkMaxLength kw.maxLength v &&
  checkPattern kw.pattern v && checkEnum kw.enum v &&
  checkMinItems kw.minItems v && checkMinimum kw.minimum v &&
  checkMaximum kw.maximum v

mutual
/-- Whether a value satisfies a schema. -/
def validate : Schema → BVal → Bool
  | .node kw props items, v =>
    checkKeywords kw v && validateProps props v && validateItems items v
/-- Keyword `properties`: applies to objects; a listed field that is present
satisfies its schema. -/
def validateProps : List (String × Schema) → BVal → Bool
  | [], _ => true
  | (name, s) :: rest, v =>
    (match v with
      | .object fs =>
        (match getField fs name with
          | some x => validate s x
          | none => true)
      | _ => true) && validateProps rest v
/-- Keyword `items`: applies to arrays; every element satisfies the schema. -/
def validateItems : Option Schema → BVal → Bool
  | none, _ => true
  | some s, v =>
    match v with
    | .array xs => xs.all (fun x => validate s x)
    | _ => true
end

/-- Whether a collection validator accepts a document. -/
def accepts (validator : Schema) (d : Doc) : Bool :=
  validate validator (.object d)

/-! ## The script -/

/-- One entry of the `roles` array of `createUser`. -/
structure RoleGrant where
  role : String
  db : String
  deriving DecidableEq, Repr

/-- The options document of `createIndex`; a key that is not written is
`none`. -/
structure IndexOptions where
  unique : Option Bool := none
  sparse : Option Bool := none
  deriving DecidableEq, Repr

/-- The statements the script is made of. -/
inductive Stmt
  | print (msg : String)
  | getSiblingDB (name : String)
  | createUser (user : String) (pwd : String) (roles : List RoleGrant)
  | createCollection (name : String) (validator : Schema)
  | createIndex (collection : String) (keys : List (String × Int))
      (options : Option IndexOptions)

/-- The bracket class `[a-zA-Z0-9._%+-]`. -/
def emailLocalClass : List (Char × Char) :=
  [('a', 'z'), ('A', 'Z'), ('0', '9'), ('.', '.'), ('_', '_'), ('%', '%'), ('+', '+'),
   ('-', '-')]

/-- The bracket class `[a-zA-Z0-9.-]`. -/
def emailDomainClass : List (Char × Char) :=
  [('a', 'z'), ('A', 'Z'), ('0', '9'), ('.', '.'), ('-', '-')]

/-- The bracket class `[a-zA-Z]`. -/
def emailTldClass : List (Char × Char) :=
  [('a', 'z'), ('A', 'Z')]

/-- The `pattern` of `email`:
`^[a-zA-Z0-9._%+-]+@[a-zA-Z0-9.-]+\.[a-zA-Z]{2,}$`. -/
def emailPattern : Pattern where
  anchoredStart := true
  body :=
    .seq (.plus (.cls emailLocalClass))
      (.seq (.chr '@')
        (.seq (.plus (.cls emailDomainClass))
          (.seq (.chr '.') (.atLeast 2 (.cls emailTldClass)))))
  anchoredEnd := true

/-- The `$jsonSchema` of `createCollection('users', ...)`. -/
def usersSchema : Schema :=
  .node
    { bsonType := some .object,
      required := ["username", "email", "password", "fullname", "role", "isVerified"] }
    [ ("username", .node
        { bsonType := some .string, minLength := some 3, maxLength := some 30,
          description := "Username must be a string between 3-30 characters" } [] none),
      ("email", .node
        { bsonType := some .string, pattern := some emailPattern,
          description := "Email must be a valid email address" } [] none),
      ("password", .node
        { bsonType := some .string, minLength := some 8,
          description := "Password must be at least 8 characters" } [] none),
      ("fullname", .node
        { bsonType := some .string, minLength := some 2, maxLength := some 100,
          description := "Full name must be between 2-100 characters" } [] none),
      ("role", .node
        { bsonType := some .string, enum := some [.string "admin", .string "user"],
          description := "Role must be either admin or user" } [] none),
      ("isVerified", .node
        { bsonType := some .bool,
          description := "isVerified must be a boolean" } [] none),
      ("displayName", .node
        { bsonType := some .string, maxLength := some 50,
          description := "Display name must be max 50 characters" } [] none),
      ("isAnonymous", .node
        { bsonType := some .bool,
          description := "isAnonymous must be a boolean" } [] none),
      ("isMentor", .node
        { bsonType := some .bool,
          description := "isMentor must be a boolean" } [] none),
      ("isMentee", .node
        { bsonType := some .bool,
          description := "isMentee must be a boolean" } [] none),
      ("mentorshipTopics", .node
        { bsonType := some .array,
          description := "mentorshipTopics must be an array of strings" } []
        (some (.node { bsonType := some .string } [] none))),
      ("availableForMentoring", .node
        { bsonType := some .bool,
          description := "availableForMentoring must be a boolean" } [] none) ]
    none

/-- The `$jsonSchema` of `createCollection('mentorship_requests', ...)`. -/
def mentorshipRequestsSchema : Schema :=
  .node
    { bsonType := some .object,
      required := ["menteeId", "mentorId", "status", "topics", "createdAt", "updatedAt"] }
    [ ("menteeId", .node
        { bsonType := some .objectId,
          description := "menteeId must be a valid ObjectId" } [] none),
      ("mentorId", .node
        { bsonType := some .objectId,
          description := "mentorId must be a valid ObjectId" } [] none),
      ("status", .node
        { bsonType := some .string,
          enum := some [.string "pending", .string "accepted", .string "rejected",
            .string "canceled"],
          description := "status must be one of: pending, accepted, rejected, canceled" }
        [] none),
      ("topics", .node
        { bsonType := some .array, minItems := some 1,
          description := "topics must be a non-empty array of strings" } []
        (some (.node { bsonType := some .string } [] none))),
      ("message", .node
        { bsonType := some .string, maxLength := some 500,
          description := "message must be max 500 characters" } [] none) ]
    none

/-- The `$jsonSchema` of `createCollection('mentorship_connections', ...)`. -/
def mentorshipConnectionsSchema : Schema :=
  .node
    { bsonType := some .object,
      required := ["menteeId", "mentorId", "requestId", "status", "topics", "startedAt",
        "createdAt", "updatedAt"] }
    [ ("menteeId", .node
        { bsonType := some .objectId,
          description := "menteeId must be a valid ObjectId" } [] none),
      ("mentorId", .node
        { bsonType := some .objectId,
          description := "mentorId must be a valid ObjectId" } [] none),
      ("requestId", .node
        { bsonType := some .objectId,
          description := "requestId must be a valid ObjectId" } [] none),
      ("status", .node
        { bsonType := some .string,
          enum := some [.string "active", .string "paused", .string "completed",
            .string "ended"],
          description := "status must be one of: active, paused, completed, ended" }
        [] none),
      ("topics", .node
        { bsonType := some .array, minItems := some 1,
          description := "topics must be a non-empty array of strings" } []
        (some (.node { bsonType := some .string } [] none))),
      ("menteeRating", .node
        { bsonType := some .int, minimum := some 1, maximum := some 5,
          description := "menteeRating must be between 1-5" } [] none),
      ("mentorRating", .node
        { bsonType := some .int, minimum := some 1, maximum := some 5,
          description := "mentorRating must be between 1-5" } [] none) ]
    none

/-- The statements of `mongo-init.js`, in source order. -/
def script : List Stmt :=
  [ .print "Starting ShareSpace database initialization...",
    .getSiblingDB "sharespace",
    .createUser "sharespace_app" "sharespace_password" [⟨"readWrite", "sharespace"⟩],
    .print "Creating users collection...",
    .createCollection "users" usersSchema,
    .print "Creating mentorship_requests collection...",
    .createCollection "mentorship_requests" mentorshipRequestsSchema,
    .print "Creating mentorship_connections collection...",
    .createCollection "mentorship_connections" mentorshipConnectionsSchema,
    .print "Creating indexes...",
    .createIndex "users" [("username", 1)] (some { unique := some true }),
    .createIndex "users" [("email", 1)] (some { unique := some true }),
    .createIndex "users" [("displayName", 1)]
      (some { unique := some true, sparse := some true }),
    .createIndex "users" [("isMentor", 1), ("availableForMentoring", 1)] none,
    .createIndex "users" [("isMentee", 1)] none,
    .createIndex "users" [("mentorshipTopics", 1)] none,
    .createIndex "mentorship_requests" [("menteeId", 1)] none,
    .createIndex "mentorship_requests" [("mentorId", 1)] none,
    .createIndex "mentorship_requests" [("status", 1)] none,
    .createIndex "mentorship_requests" [("menteeId", 1), ("mentorId", 1), ("status", 1)] none,
    .createIndex "mentorship_requests" [("createdAt", 1)] none,
    .createIndex "mentorship_requests" [("topics", 1)] none,
    .createIndex "mentorship_connections" [("menteeId", 1)] none,
    .createIndex "mentorship_connections" [("mentorId", 1)] none,
    .createIndex "mentorship_connections" [("requestId", 1)] (some { unique := some true }),
    .createIndex "mentorship_connections" [("status", 1)] none,
    .createIndex "mentorship_connections" [("startedAt", 1)] none,
    .createIndex "mentorship_connections" [("topics", 1)] none,
    .createIndex "mentorship_connections" [("menteeId", 1), ("status", 1)] none,
    .createIndex "mentorship_connections" [("mentorId", 1), ("status", 1)] none,
    .print "ShareSpace database initialization completed successfully!",
    .print "Collections created: users, mentorship_requests, mentorship_connections",
    .print "Indexes created for optimal query performance",
    .print "Application user created: sharespace_app" ]

/-! ## The server the script runs against -/

/-- An index of a collection: key fields with their direction, and the two
options the script uses (an option that is not written is off). -/
structure IndexSpec where
  keys : List (String × Int)
  unique : Bool
  sparse : Bool
  deriving DecidableEq, Repr

/-- The index a `createIndex` call asks for. -/
def IndexSpec.ofCall (keys : List (String × Int)) (options : Option IndexOptions) :
    IndexSpec where
  keys := keys
  unique := (options.bind (fun o => o.unique)).getD false
  sparse := (options.bind (fun o => o.sparse)).getD false

/-- A collection: its validator when it has one, its indexes in creation
order (the built-in index on `_id` is left out), and the documents stored. -/
structure Collection where
  validator : Option Schema
  indexes : List IndexSpec
  docs : List Doc

/-- A database principal: the database it is defined in, its name, its secret
and the roles granted to it. -/
structure Principal where
  db : String
  user : String
  pwd : String
  roles : List RoleGrant
  deriving DecidableEq, Repr

/-- The state of the server: principals, and collections by (database,
collection name). -/
structure Server where
  principals : List Principal
  collections : List ((String × String) × Collection)

/-- The state of a shell session: the database the variable `db` denotes, the
server, and the lines printed so far. -/
structure Shell where
  db : String
  server : Server
  output : List String

/-- A server with nothing in it. -/
def Server.empty : Server := ⟨[], []⟩

/-- A session on an empty server whose `db` is `db0`. -/
def Shell.fresh (db0 : String) : Shell := ⟨db0, Server.empty, []⟩

/-- The collection `name` of database `db`, when it exists. -/
def Server.collection (s : Server) (db name : String) : Option Collection :=
  s.collections.lookup (db, name)

/-- Replace the collection stored under `key`, or add it at the end. -/
def putCollection (key : String × String) (c : Collection) :
    List ((String × String) × Collection) → List ((String × String) × Collection)
  | [] => [(key, c)]
  | (k, old) :: rest =>
    if k == key then (k, c) :: rest else (k, old) :: putCollection key c rest

/-- Run one statement.  Creating a principal or a collection that exists
already is an error; so is an index on the keys of an existing index with
other options, while asking again for an existing index changes nothing.
An index on a collection that does not exist creates the collection. -/
def exec (sh : Shell) : Stmt → Except String Shell
  | .print msg => .ok { sh with output := sh.output ++ [msg] }
  | .getSiblingDB name => .ok { sh with db := name }
  | .createUser user pwd roles =>
    if sh.server.principals.any (fun p => p.db == sh.db && p.user == user) then
      .error "user already exists"
    else
      .ok { sh with server :=
        { sh.server with principals := sh.server.principals ++ [⟨sh.db, user, pwd, roles⟩] } }
  | .createCollection name validator =>
    match sh.server.collection sh.db name with
    | some _ => .error "collection already exists"
    | none =>
      .ok { sh with server :=
        { sh.server with collections :=
            sh.server.collections ++ [((sh.db, name), ⟨some validator, [], []⟩)] } }
  | .createIndex coll keys options =>
    let ix := IndexSpec.ofCall keys options
    let c := (sh.server.collection sh.db coll).getD ⟨none, [], []⟩
    match c.indexes.find? (fun j => j.keys == keys) with
    | some j =>
      if j = ix then .ok sh else .error "index exists with different options"
    | none =>
      let c' : Collection := { c with indexes := c.indexes ++ [ix] }
      let colls := putCollection (sh.db, coll) c' sh.server.collections
      .ok { sh with server := { sh.server with collections := colls } }

/-- Run statements in order, stopping at the first error. -/
def run (sh : Shell) : List Stmt → Except String Shell
  | [] => .ok sh
  | st :: rest =>
    match exec sh st with
    | .ok sh' => run sh' rest
    | .error e => .error e

/-! ## Index keys and insertion -/

/-- The keys a single indexed field contributes: the value itself; `null`
when the field is missing; one key per element when the value is an array,
and `undefined` for the empty array. -/
def fieldKeys : Option BVal → List BVal
  | none => [.null]
  | some (.array []) => [.undefined]
  | some (.array (x :: xs)) => x :: xs
  | some v => [v]

/-- All ways to pick one element from each list, in order. -/
def tuples : List (List BVal) → List (List BVal)
  | [] => [[]]
  | ks :: rest => ks.flatMap (fun k => (tuples rest).map (fun t => k :: t))

/-- The key tuples under which an index holds a document.  A sparse index
holds no entry for a document that has none of the indexed fields. -/
def indexKeys (ix : IndexSpec) (d : Doc) : List (List BVal) :=
  if ix.sparse && ix.keys.all (fun k => (getField d k.1).isNone) then []
  else tuples (ix.keys.map (fun k => fieldKeys (getField d k.1)))

/-- Whether two documents have an index key in common. -/
def keysClash (ix : IndexSpec) (a b : Doc) : Bool :=
  (indexKeys ix a).any (fun k => (indexKeys ix b).any (fun l => bsonEqElems k l))

/-- Whether storing `d` next to `docs` would break a unique index. -/
def violatesUnique (ix : IndexSpec) (docs : List Doc) (d : Doc) : Bool :=
  ix.unique && docs.any (fun e => keysClash ix e d)

/-- Why a write is refused. -/
inductive WriteError
  | documentValidationFailure
  | duplicateKey (index : IndexSpec)
  | invalidId
  deriving DecidableEq, Repr

/-- Insert a document against the validator and the indexes listed in the
collection: it must pass the validator, then every unique index must stay free
of duplicates; the document is then stored.  The built-in index on `_id` is not
among the listed indexes; `Collection.insertOne` adds it. -/
def Collection.insert (c : Collection) (d : Doc) : Except WriteError Collection :=
  if (match c.validator with
      | some s => accepts s d
      | none => true) = false then .error .documentValidationFailure
  else
    match c.indexes.find? (fun ix => violatesUnique ix c.docs d) with
    | some ix => .error (.duplicateKey ix)
    | none => .ok { c with docs := c.docs ++ [d] }

/-- The states a collection reaches from `c0` by accepted inserts. -/
inductive Reachable (c0 : Collection) : Collection → Prop
  | start : Reachable c0 c0
  | insert {c c' : Collection} (d : Doc) :
      Reachable c0 c → c.insert d = .ok c' → Reachable c0 c'

/-! ### The built-in `_id` index

Every collection has a unique index on `_id` that no script creates or drops.
A document handed over without `_id` is given a new ObjectId in front of its
other fields before it is validated and indexed. -/

/-- The built-in unique index on `_id`. -/
def idIndex : IndexSpec := ⟨[("_id", 1)], true, false⟩

/-- The ObjectIds among the `_id` keys of the stored documents. -/
def storedObjectIds (docs : List Doc) : List Nat :=
  docs.flatMap (fun e =>
    (fieldKeys (getField e "_id")).filterMap (fun k =>
      match k with
      | .objectId i => some i
      | _ => none))

/-- An ObjectId that no stored document has as `_id`: the generated ids are
unique, here the one after the largest stored. -/
def freshId (docs : List Doc) : Nat :=
  (storedObjectIds docs).foldr max 0 + 1

/-- The document as it is stored: with its own `_id`, or with a new ObjectId
in front when it has none. -/
def assignId (docs : List Doc) (d : Doc) : Doc :=
  match getField d "_id" with
  | some _ => d
  | none => ("_id", .objectId (freshId docs)) :: d

/-- Whether a value may be an `_id`: anything but an array, a regular
expression or `undefined`; a missing `_id` is fine, one is assigned. -/
def validId : Option BVal → Bool
  | some (.array _) => false
  | some (.regex _ _) => false
  | some .undefined => false
  | _ => true

/-- Insert a document as the server does: the `_id` must be admissible, one is
assigned when missing, and the document is then inserted against the validator,
the built-in `_id` index and the indexes of the collection. -/
def Collection.insertOne (c : Collection) (d : Doc) : Except WriteError Collection :=
  if validId (getField d "_id") = false then .error .invalidId
  else
    match Collection.insert ⟨c.validator, idIndex :: c.indexes, c.docs⟩
        (assignId c.docs d) with
    | .ok c' => .ok ⟨c.validator, c.indexes, c'.docs⟩
    | .error e => .error e

/-! ## What the script leaves behind -/

/-- The `createIndex` calls of the script, in order: collection, key
document, options. -/
def createIndexCalls : List (String × List (String × Int) × Option IndexOptions) :=
  script.filterMap (fun st =>
    match st with
    | .createIndex coll keys options => some (coll, keys, options)
    | _ => none)

/-- The validator the script gives to collection `name`. -/
def validatorOf (name : String) : Option Schema :=
  script.findSome? (fun st =>
    match st with
    | .createCollection n v => if n == name then some v else none
    | _ => none)

/-- The server after the script has run in a session whose `db` was `db0`. -/
def provisioned (db0 : String) : Except String Server :=
  (run (Shell.fresh db0) script).map (fun sh => sh.server)

/-- The collection `name` of database `sharespace` right after provisioning
(empty when the script did not create it). -/
def provisionedCollection (name : String) : Collection :=
  match provisioned "test" with
  | .ok s => (s.collection "sharespace" name).getD ⟨none, [], []⟩
  | .error _ => ⟨none, [], []⟩

/-- The `users` collection right after provisioning. -/
def usersCollection : Collection := provisionedCollection "users"

/-- The `mentorship_requests` collection right after provisioning. -/
def requestsCollection : Collection := provisionedCollection "mentorship_requests"

/-- The `mentorship_connections` collection right after provisioning. -/
def connectionsCollection : Collection := provisionedCollection "mentorship_connections"

/-- The `createUser` calls of the script, in order: name, secret, roles. -/
def createUserCalls : List (String × String × List RoleGrant) :=
  script.filterMap (fun st =>
    match st with
    | .createUser user pwd roles => some (user, pwd, roles)
    | _ => none)

/-- The database names the script passes to `getSiblingDB`, in order. -/
def selectedDatabases : List String :=
  script.filterMap (fun st =>
    match st with
    | .getSiblingDB name => some name
    | _ => none)

/-- Whether a statement is a `createUser` call. -/
def Stmt.isCreateUser : Stmt → Bool
  | .createUser _ _ _ => true
  | _ => false

/-- Whether a statement is a `createCollection` call. -/
def Stmt.isCreateCollection : Stmt → Bool
  | .createCollection _ _ => true
  | _ => false

/-- Whether a statement is a `createIndex` call. -/
def Stmt.isCreateIndex : Stmt → Bool
  | .createIndex _ _ _ => true
  | _ => false

/-- The type a schema declares for a top-level field through `properties`. -/
def declaredType (s : Schema) (field : String) : Option BsonType :=
  match s with
  | .node _ props _ =>
    match props.lookup field with
    | some (.node kw _ _) => kw.bsonType
    | none => none

/-! ## The index plan of the specification (section 4.1) -/

/-- The entries of the Options column of the index plan. -/
inductive PlanOption
  | unique
  | uniqueSparse
  | compound
  | multikey
  | plain
  deriving DecidableEq, Repr

/-- One row of the index plan: collection, keys, options. -/
structure PlanRow where
  collection : String
  keys : List String
  option : PlanOption
  deriving DecidableEq, Repr

/-- The table "Full index plan" of the specification, row by row. -/
def indexPlan : List PlanRow :=
  [ ⟨"users", ["username"], .unique⟩,
    ⟨"users", ["email"], .unique⟩,
    ⟨"users", ["displayName"], .uniqueSparse⟩,
    ⟨"users", ["isMentor", "availableForMentoring"], .compound⟩,
    ⟨"users", ["isMentee"], .plain⟩,
    ⟨"users", ["mentorshipTopics"], .multikey⟩,
    ⟨"mentorship_requests", ["menteeId"], .plain⟩,
    ⟨"mentorship_requests", ["mentorId"], .plain⟩,
    ⟨"mentorship_requests", ["status"], .plain⟩,
    ⟨"mentorship_requests", ["menteeId", "mentorId", "status"], .compound⟩,
    ⟨"mentorship_requests", ["createdAt"], .plain⟩,
    ⟨"mentorship_requests", ["topics"], .multikey⟩,
    ⟨"mentorship_connections", ["menteeId"], .plain⟩,
    ⟨"mentorship_connections", ["mentorId"], .plain⟩,
    ⟨"mentorship_connections", ["requestId"], .unique⟩,
    ⟨"mentorship_connections", ["status"], .plain⟩,
    ⟨"mentorship_connections", ["startedAt"], .plain⟩,
    ⟨"mentorship_connections", ["topics"], .multikey⟩,
    ⟨"mentorship_connections", ["menteeId", "status"], .compound⟩,
    ⟨"mentorship_connections", ["mentorId", "status"], .compound⟩ ]

/-- The options document a row of the plan stands for: `unique` and
`unique, sparse` are options of the call, the other entries describe the keys
and stand for a call without options. -/
def PlanOption.options : PlanOption → Option IndexOptions
  | .unique => some { unique := some true }
  | .uniqueSparse => some { unique := some true, sparse := some true }
  | .compound => none
  | .multikey => none
  | .plain => none

/-- The call a row of the plan stands for: every key ascending. -/
def PlanRow.call (r : PlanRow) : String × List (String × Int) × Option IndexOptions :=
  (r.collection, r.keys.map (fun k => (k, 1)), r.option.options)

/-! ## Sample documents -/

/-- The document `d` with field `name` set to `v`: replaced in place when the
field is present, added at the end when it is not. -/
def setField : Doc → String → BVal → Doc
  | [], name, v => [(name, v)]
  | (k, x) :: rest, name, v =>
    if k = name then (k, v) :: rest else (k, x) :: setField rest name v

/-- A user document with the six required fields and nothing else. -/
def userDoc (username email password fullname role : String) (isVerified : Bool) : Doc :=
  [ ("username", .string username), ("email", .string email),
    ("password", .string password), ("fullname", .string fullname),
    ("role", .string role), ("isVerified", .bool isVerified) ]

/-- The user of the scenario in section 8 of the specification. -/
def sampleUser : Doc :=
  userDoc "abc" "a@b.com" "12345678" "Ann Bee" "user" false

/-- A second user, with another username and email and no display name. -/
def otherUser : Doc :=
  userDoc "bob" "bob@example.org" "abcdefgh" "Bob Cee" "admin" true

/-- A request between two users with the given status, topics and the two
timestamp fields `c` and `u`. -/
def requestDoc (mentee mentor : Nat) (status : String) (topics : List BVal) (c u : BVal) :
    Doc :=
  [ ("menteeId", .objectId mentee), ("mentorId", .objectId mentor),
    ("status", .string status), ("topics", .array topics),
    ("createdAt", c), ("updatedAt", u) ]

/-- A connection for request `req` started at `started`, whose ratings are the
given fields. -/
def connectionDoc (req : Nat) (started : BVal) (ratings : Doc) : Doc :=
  [ ("menteeId", .objectId 1), ("mentorId", .objectId 2), ("requestId", .objectId req),
    ("status", .string "active"), ("topics", .array [.string "go"]),
    ("startedAt", started), ("createdAt", .date 0), ("updatedAt", .date 0) ] ++ ratings

/-- The server the script leaves behind on an empty server, written out. -/
def provisionedServer : Server where
  principals :=
    [⟨"sharespace", "sharespace_app", "sharespace_password", [⟨"readWrite", "sharespace"⟩]⟩]
  collections :=
    [ (("sharespace", "users"),
        ⟨some usersSchema,
          [ ⟨[("username", 1)], true, false⟩,
            ⟨[("email", 1)], true, false⟩,
            ⟨[("displayName", 1)], true, true⟩,
            ⟨[("isMentor", 1), ("availableForMentoring", 1)], false, false⟩,
            ⟨[("isMentee", 1)], false, false⟩,
            ⟨[("mentorshipTopics", 1)], false, false⟩ ], []⟩),
      (("sharespace", "mentorship_requests"),
        ⟨some mentorshipRequestsSchema,
          [ ⟨[("menteeId", 1)], false, false⟩,
            ⟨[("mentorId", 1)], false, false⟩,
            ⟨[("status", 1)], false, false⟩,
            ⟨[("menteeId", 1), ("mentorId", 1), ("status", 1)], false, false⟩,
            ⟨[("createdAt", 1)], false, false⟩,
            ⟨[("topics", 1)], false, false⟩ ], []⟩),
      (("sharespace", "mentorship_connections"),
        ⟨some mentorshipConnectionsSchema,
          [ ⟨[("menteeId", 1)], false, false⟩,
            ⟨[("mentorId", 1)], false, false⟩,
            ⟨[("requestId", 1)], true, false⟩,
            ⟨[("status", 1)], false, false⟩,
            ⟨[("startedAt", 1)], false, false⟩,
            ⟨[("topics", 1)], false, false⟩,
            ⟨[("menteeId", 1), ("status", 1)], false, false⟩,
            ⟨[("mentorId", 1), ("status", 1)], false, false⟩ ], []⟩) ]

/-! ## Running the script -/

theorem run_script_start (db0 : String) :
    run (Shell.fresh db0) script =
      run ⟨"sharespace", Server.empty, ["Starting ShareSpace database initialization..."]⟩
        (script.drop 2) := by
  simp only [script, List.drop, run, exec, Shell.fresh, List.nil_append]

theorem provisioned_test : provisioned "test" = .ok provisionedServer := rfl

theorem provisioned_eq (db0 : String) : provisioned db0 = .ok provisionedServer := by
  have h : provisioned db0 = provisioned "test" := by
    unfold provisioned
    rw [run_script_start db0, run_script_start "test"]
  rw [h, provisioned_test]

theorem usersCollection_eq :
    usersCollection =
      ⟨some usersSchema,
        [ ⟨[("username", 1)], true, false⟩,
          ⟨[("email", 1)], true, false⟩,
          ⟨[("displayName", 1)], true, true⟩,
          ⟨[("isMentor", 1), ("availableForMentoring", 1)], false, false⟩,
          ⟨[("isMentee", 1)], false, false⟩,
          ⟨[("mentorshipTopics", 1)], false, false⟩ ], []⟩ := rfl

theorem requestsCollection_eq :
    requestsCollection =
      ⟨some mentorshipRequestsSchema,
        [ ⟨[("menteeId", 1)], false, false⟩,
          ⟨[("mentorId", 1)], false, false⟩,
          ⟨[("status", 1)], false, false⟩,
          ⟨[("menteeId", 1), ("mentorId", 1), ("status", 1)], false, false⟩,
          ⟨[("createdAt", 1)], false, false⟩,
          ⟨[("topics", 1)], false, false⟩ ], []⟩ := rfl

theorem connectionsCollection_eq :
    connectionsCollection =
      ⟨some mentorshipConnectionsSchema,
        [ ⟨[("menteeId", 1)], false, false⟩,
          ⟨[("mentorId", 1)], false, false⟩,
          ⟨[("requestId", 1)], true, false⟩,
          ⟨[("status", 1)], false, false⟩,
          ⟨[("startedAt", 1)], false, false⟩,
          ⟨[("topics", 1)], false, false⟩,
          ⟨[("menteeId", 1), ("status", 1)], false, false⟩,
          ⟨[("mentorId", 1), ("status", 1)], false, false⟩ ], []⟩ := rfl

/-! ## Evaluation of the validators -/

theorem validateProps_object (props : List (String × Schema)) (d : Doc) :
    validateProps props (.object d) =
      props.all (fun p => match getField d p.1 with
        | some x => validate p.2 x
        | none => true) := by
  induction props with
  | nil => simp [validateProps]
  | cons p rest ih =>
    obtain ⟨name, s⟩ := p
    simp [validateProps, ih]

theorem optField_iff (o : Option BVal) (f : BVal → Bool) :
    (match o with
      | some x => f x
      | none => true) = true ↔ ∀ x, o = some x → f x = true := by
  cases o <;> simp

theorem validate_stringLeaf (lo hi : Option Nat) (desc : String) (v : BVal) :
    validate (.node { bsonType := some .string, minLength := lo, maxLength := hi, description := desc } [] none) v = true ↔
    ∃ s, v = .string s ∧ (∀ n, lo = some n → n ≤ s.length) ∧
      (∀ n, hi = some n → s.length ≤ n) := by
  cases v <;> cases lo <;> cases hi <;>
    simp [validate, validateProps, validateItems, checkKeywords, checkBsonType, BVal.bsonType,
      checkRequired, checkMinLength, checkMaxLength, checkPattern, checkEnum, checkMinItems,
      checkMinimum, checkMaximum, BVal.toNum]

theorem validate_patternLeaf (p : Pattern) (desc : String) (v : BVal) :
    validate (.node { bsonType := some .string, pattern := some p, description := desc } [] none) v = true ↔
    ∃ s, v = .string s ∧ p.test s = true := by
  cases v <;>
    simp [validate, validateProps, validateItems, checkKeywords, checkBsonType, BVal.bsonType,
      checkRequired, checkMinLength, checkMaxLength, checkPattern, checkEnum, checkMinItems,
      checkMinimum, checkMaximum, BVal.toNum]

theorem validate_enumLeaf (names : List String) (desc : String) (v : BVal) :
    validate (.node { bsonType := some .string, enum := some (names.map BVal.string), description := desc } [] none) v = true ↔
    ∃ s, v = .string s ∧ s ∈ names := by
  cases v <;>
    simp [validate, validateProps, validateItems, checkKeywords, checkBsonType, BVal.bsonType,
      checkRequired, checkMinLength, checkMaxLength, checkPattern, checkEnum, checkMinItems,
      checkMinimum, checkMaximum, BVal.toNum, bsonEq]

theorem validate_boolLeaf (desc : String) (v : BVal) :
    validate (.node { bsonType := some .bool, description := desc } [] none) v = true ↔
    ∃ b, v = .bool b := by
  cases v <;>
    simp [validate, validateProps, validateItems, checkKeywords, checkBsonType, BVal.bsonType,
      checkRequired, checkMinLength, checkMaxLength, checkPattern, checkEnum, checkMinItems,
      checkMinimum, checkMaximum, BVal.toNum]

theorem validate_objectIdLeaf (desc : String) (v : BVal) :
    validate (.node { bsonType := some .objectId, description := desc } [] none) v = true ↔
    ∃ i, v = .objectId i := by
  cases v <;>
    simp [validate, validateProps, validateItems, checkKeywords, checkBsonType, BVal.bsonType,
      checkRequired, checkMinLength, checkMaxLength, checkPattern, checkEnum, checkMinItems,
      checkMinimum, checkMaximum, BVal.toNum]

theorem validate_stringItem (v : BVal) :
    validate (.node { bsonType := some .string } [] none) v = true ↔ ∃ s, v = .string s := by
  cases v <;>
    simp [validate, validateProps, validateItems, checkKeywords, checkBsonType, BVal.bsonType,
      checkRequired, checkMinLength, checkMaxLength, checkPattern, checkEnum, checkMinItems,
      checkMinimum, checkMaximum, BVal.toNum]

theorem validate_stringArray (m : Option Nat) (desc : String) (v : BVal) :
    validate (.node { bsonType := some .array, minItems := m, description := desc } []
      (some (.node { bsonType := some .string } [] none))) v = true ↔
    ∃ xs, v = .array xs ∧ (∀ n, m = some n → n ≤ xs.length) ∧
      ∀ x ∈ xs, ∃ s, x = .string s := by
  rw [validate, validateProps]
  cases v <;> cases m <;>
    simp [validateItems, validate_stringItem, checkKeywords, checkBsonType, BVal.bsonType,
      checkRequired, checkMinLength, checkMaxLength, checkPattern, checkEnum, checkMinItems,
      checkMinimum, checkMaximum, BVal.toNum]

theorem validate_intRange (lo hi : Int) (desc : String) (v : BVal) :
    validate (.node { bsonType := some .int, minimum := some lo, maximum := some hi, description := desc } [] none) v = true ↔
    ∃ n, v = .int n ∧ lo ≤ n ∧ n ≤ hi := by
  cases v <;>
    simp [validate, validateProps, validateItems, checkKeywords, checkBsonType, BVal.bsonType,
      checkRequired, checkMinLength, checkMaxLength, checkPattern, checkEnum, checkMinItems,
      checkMinimum, checkMaximum, BVal.toNum, NumVal.le]

theorem accepts_node (kw : Keywords) (props : List (String × Schema)) (d : Doc) :
    accepts (.node kw props none) d = true ↔
      checkKeywords kw (.object d) = true ∧
        ∀ p ∈ props, ∀ x, getField d p.1 = some x → validate p.2 x = true := by
  simp only [accepts, validate, validateProps_object, validateItems, Bool.and_true,
    Bool.and_eq_true, List.all_eq_true, optField_iff]

theorem checkKeywords_object (names : List String) (d : Doc) :
    checkKeywords { bsonType := some .object, required := names } (.object d) = true ↔
      ∀ n ∈ names, (getField d n).isSome = true := by
  simp [checkKeywords, checkBsonType, BVal.bsonType, checkRequired, checkMinLength,
    checkMaxLength, checkPattern, checkEnum, checkMinItems, checkMinimum, checkMaximum,
    BVal.toNum]

theorem req_string (o : Option BVal) (P : String → Prop) :
    (∃ s, o = some (.string s) ∧ P s) ↔
      (∃ a, o = some a) ∧ ∀ x, o = some x → ∃ s, x = .string s ∧ P s := by
  cases o <;> simp

theorem req_bool (o : Option BVal) :
    (∃ b, o = some (.bool b)) ↔ (∃ a, o = some a) ∧ ∀ x, o = some x → ∃ b, x = .bool b := by
  cases o <;> simp

theorem req_objectId (o : Option BVal) :
    (∃ i, o = some (.objectId i)) ↔
      (∃ a, o = some a) ∧ ∀ x, o = some x → ∃ i, x = .objectId i := by
  cases o <;> simp

theorem req_stringArray (o : Option BVal) (P : List BVal → Prop) :
    (∃ xs, o = some (.array xs) ∧ P xs) ↔
      (∃ a, o = some a) ∧ ∀ x, o = some x → ∃ xs, x = .array xs ∧ P xs := by
  cases o <;> simp

theorem accepts_users_iff (d : Doc) :
    accepts usersSchema d = true ↔
      (∃ s, getField d "username" = some (.string s) ∧ 3 ≤ s.length ∧ s.length ≤ 30) ∧
      (∃ s, getField d "email" = some (.string s) ∧ emailPattern.test s = true) ∧
      (∃ s, getField d "password" = some (.string s) ∧ 8 ≤ s.length) ∧
      (∃ s, getField d "fullname" = some (.string s) ∧ 2 ≤ s.length ∧ s.length ≤ 100) ∧
      (∃ s, getField d "role" = some (.string s) ∧ (s = "admin" ∨ s = "user")) ∧
      (∃ b, getField d "isVerified" = some (.bool b)) ∧
      (∀ v, getField d "displayName" = some v → ∃ s, v = .string s ∧ s.length ≤ 50) ∧
      (∀ v, getField d "isAnonymous" = some v → ∃ b, v = .bool b) ∧
      (∀ v, getField d "isMentor" = some v → ∃ b, v = .bool b) ∧
      (∀ v, getField d "isMentee" = some v → ∃ b, v = .bool b) ∧
      (∀ v, getField d "mentorshipTopics" = some v →
        ∃ xs, v = .array xs ∧ ∀ x ∈ xs, ∃ s, x = .string s) ∧
      (∀ v, getField d "availableForMentoring" = some v → ∃ b, v = .bool b) := by
  have he := validate_enumLeaf ["admin", "user"]
  simp only [List.map, List.mem_cons, List.not_mem_nil, or_false] at he
  rw [usersSchema, accepts_node, checkKeywords_object]
  simp only [List.forall_mem_cons, List.not_mem_nil, false_imp_iff, implies_true, and_true,
    validate_stringLeaf, validate_patternLeaf, validate_boolLeaf, validate_stringArray, he,
    Option.isSome_iff_exists, Option.some.injEq, forall_eq', reduceCtorEq, true_and]
  rw [req_string (getField d "username"), req_string (getField d "email"),
    req_string (getField d "password"), req_string (getField d "fullname"),
    req_string (getField d "role"), req_bool (getField d "isVerified")]
  constructor
  · rintro ⟨⟨e1, e2, e3, e4, e5, e6⟩, a1, a2, a3, a4, a5, a6, rest⟩
    exact ⟨⟨e1, a1⟩, ⟨e2, a2⟩, ⟨e3, a3⟩, ⟨e4, a4⟩, ⟨e5, a5⟩, ⟨e6, a6⟩, rest⟩
  · rintro ⟨⟨e1, a1⟩, ⟨e2, a2⟩, ⟨e3, a3⟩, ⟨e4, a4⟩, ⟨e5, a5⟩, ⟨e6, a6⟩, rest⟩
    exact ⟨⟨e1, e2, e3, e4, e5, e6⟩, a1, a2, a3, a4, a5, a6, rest⟩

theorem accepts_requests_iff (d : Doc) :
    accepts mentorshipRequestsSchema d = true ↔
      (∃ i, getField d "menteeId" = some (.objectId i)) ∧
      (∃ i, getField d "mentorId" = some (.objectId i)) ∧
      (∃ s, getField d "status" = some (.string s) ∧
        (s = "pending" ∨ s = "accepted" ∨ s = "rejected" ∨ s = "canceled")) ∧
      (∃ xs, getField d "topics" = some (.array xs) ∧ 1 ≤ xs.length ∧
        ∀ x ∈ xs, ∃ s, x = .string s) ∧
      (∃ a, getField d "createdAt" = some a) ∧
      (∃ a, getField d "updatedAt" = some a) ∧
      (∀ v, getField d "message" = some v → ∃ s, v = .string s ∧ s.length ≤ 500) := by
  have he := validate_enumLeaf ["pending", "accepted", "rejected", "canceled"]
  simp only [List.map, List.mem_cons, List.not_mem_nil, or_false] at he
  rw [mentorshipRequestsSchema, accepts_node, checkKeywords_object]
  simp only [List.forall_mem_cons, List.not_mem_nil, false_imp_iff, implies_true, and_true,
    validate_stringLeaf, validate_objectIdLeaf, validate_stringArray, he,
    Option.isSome_iff_exists, Option.some.injEq, forall_eq', reduceCtorEq, true_and]
  rw [req_objectId (getField d "menteeId"), req_objectId (getField d "mentorId"),
    req_string (getField d "status"), req_stringArray (getField d "topics")]
  constructor
  · rintro ⟨⟨e1, e2, e3, e4, e5, e6⟩, a1, a2, a3, a4, a5⟩
    exact ⟨⟨e1, a1⟩, ⟨e2, a2⟩, ⟨e3, a3⟩, ⟨e4, a4⟩, e5, e6, a5⟩
  · rintro ⟨⟨e1, a1⟩, ⟨e2, a2⟩, ⟨e3, a3⟩, ⟨e4, a4⟩, e5, e6, a5⟩
    exact ⟨⟨e1, e2, e3, e4, e5, e6⟩, a1, a2, a3, a4, a5⟩

theorem accepts_connections_iff (d : Doc) :
    accepts mentorshipConnectionsSchema d = true ↔
      (∃ i, getField d "menteeId" = some (.objectId i)) ∧
      (∃ i, getField d "mentorId" = some (.objectId i)) ∧
      (∃ i, getField d "requestId" = some (.objectId i)) ∧
      (∃ s, getField d "status" = some (.string s) ∧
        (s = "active" ∨ s = "paused" ∨ s = "completed" ∨ s = "ended")) ∧
      (∃ xs, getField d "topics" = some (.array xs) ∧ 1 ≤ xs.length ∧
        ∀ x ∈ xs, ∃ s, x = .string s) ∧
      (∃ a, getField d "startedAt" = some a) ∧
      (∃ a, getField d "createdAt" = some a) ∧
      (∃ a, getField d "updatedAt" = some a) ∧
      (∀ v, getField d "menteeRating" = some v → ∃ n, v = .int n ∧ 1 ≤ n ∧ n ≤ 5) ∧
      (∀ v, getField d "mentorRating" = some v → ∃ n, v = .int n ∧ 1 ≤ n ∧ n ≤ 5) := by
  have he := validate_enumLeaf ["active", "paused", "completed", "ended"]
  simp only [List.map, List.mem_cons, List.not_mem_nil, or_false] at he
  rw [mentorshipConnectionsSchema, accepts_node, checkKeywords_object]
  simp only [List.forall_mem_cons, List.not_mem_nil, false_imp_iff, implies_true, and_true,
    validate_stringLeaf, validate_objectIdLeaf, validate_stringArray, validate_intRange, he,
    Option.isSome_iff_exists, Option.some.injEq, forall_eq', reduceCtorEq, true_and]
  rw [req_objectId (getField d "menteeId"), req_objectId (getField d "mentorId"),
    req_objectId (getField d "requestId"),
    req_string (getField d "status"), req_stringArray (getField d "topics")]
  constructor
  · rintro ⟨⟨e1, e2, e3, e4, e5, e6, e7, e8⟩, a1, a2, a3, a4, a5, a6, a7⟩
    exact ⟨⟨e1, a1⟩, ⟨e2, a2⟩, ⟨e3, a3⟩, ⟨e4, a4⟩, ⟨e5, a5⟩, e6, e7, e8, a6, a7⟩
  · rintro ⟨⟨e1, a1⟩, ⟨e2, a2⟩, ⟨e3, a3⟩, ⟨e4, a4⟩, ⟨e5, a5⟩, e6, e7, e8, a6, a7⟩
    exact ⟨⟨e1, e2, e3, e4, e5, e6, e7, e8⟩, a1, a2, a3, a4, a5, a6, a7⟩

/-! ## Insertion -/

theorem insert_eq_ok (c : Collection) (d : Doc) (c' : Collection) :
    c.insert d = .ok c' ↔
      (∀ s, c.validator = some s → accepts s d = true) ∧
      (∀ ix ∈ c.indexes, violatesUnique ix c.docs d = false) ∧
      c' = ⟨c.validator, c.indexes, c.docs ++ [d]⟩ := by
  have hfind : ∀ r : Except WriteError Collection,
      r = (match c.indexes.find? (fun ix => violatesUnique ix c.docs d) with
        | some ix => .error (.duplicateKey ix)
        | none => .ok { c with docs := c.docs ++ [d] }) →
      (r = .ok c' ↔ (∀ ix ∈ c.indexes, violatesUnique ix c.docs d = false) ∧
        c' = ⟨c.validator, c.indexes, c.docs ++ [d]⟩) := by
    intro r hr
    cases hf : c.indexes.find? (fun ix => violatesUnique ix c.docs d) with
    | none =>
      rw [hf] at hr
      have hall : ∀ ix ∈ c.indexes, violatesUnique ix c.docs d = false := by
        intro ix hix
        have := List.find?_eq_none.mp hf ix hix
        simpa using this
      subst hr
      constructor
      · intro h
        injection h with h
        exact ⟨hall, h.symm⟩
      · rintro ⟨_, h⟩
        rw [h]
    | some ix =>
      rw [hf] at hr
      have h1 := List.find?_some hf
      have h2 := List.mem_of_find?_eq_some hf
      subst hr
      constructor
      · intro h
        cases h
      · rintro ⟨h, _⟩
        have := h ix h2
        simp only [this] at h1
        cases h1
  unfold Collection.insert
  cases hv : c.validator with
  | none =>
    simp only [reduceCtorEq, if_false, false_imp_iff, implies_true, true_and]
    have := hfind _ rfl
    rw [hv] at this
    exact this
  | some s =>
    cases ha : accepts s d with
    | false =>
      dsimp only
      rw [ha]
      simp only [if_true, Option.some.injEq, forall_eq']
      constructor
      · intro h
        cases h
      · rintro ⟨h, _⟩
        rw [ha] at h
        cases h
    | true =>
      dsimp only
      rw [ha]
      simp only [reduceCtorEq, if_false, Option.some.injEq, forall_eq', ha, true_and]
      have := hfind _ rfl
      rw [hv] at this
      exact this

theorem insert_error_of_not_ok (c : Collection) (d : Doc)
    (h : ∀ c', c.insert d ≠ .ok c') : ∃ err, c.insert d = .error err := by
  cases hi : c.insert d with
  | error e => exact ⟨e, rfl⟩
  | ok c' => exact absurd hi (h c')

theorem getField_cons (k : String) (v : BVal) (d : Doc) (n : String) :
    getField ((k, v) :: d) n = if n = k then some v else getField d n := by
  simp only [getField, List.lookup]
  by_cases h : n = k
  · simp [h]
  · have : (n == k) = false := by simpa using h
    simp [this, h]

theorem getField_setField (d : Doc) (f : String) (v : BVal) (n : String) :
    getField (setField d f v) n = if n = f then some v else getField d n := by
  induction d with
  | nil => rw [setField, getField_cons]
  | cons kv rest ih =>
    obtain ⟨k, x⟩ := kv
    rw [setField]
    by_cases hk : k = f
    · subst hk
      rw [if_pos rfl, getField_cons, getField_cons]
      by_cases hn : n = k
      · rw [if_pos hn, if_pos hn]
      · rw [if_neg hn, if_neg hn, if_neg hn]
    · rw [if_neg hk, getField_cons, getField_cons, ih]
      by_cases hn : n = k
      · rw [if_pos hn, if_pos hn, if_neg (by rw [hn]; exact hk)]
      · rw [if_neg hn, if_neg hn]

theorem keysClash_string (f : String) (dir : Int) (u sp : Bool) (a b : Doc) (s t : String)
    (ha : getField a f = some (.string s)) (hb : getField b f = some (.string t)) :
    keysClash ⟨[(f, dir)], u, sp⟩ a b = decide (s = t) := by
  simp [keysClash, indexKeys, ha, hb, fieldKeys, tuples, bsonEqElems, bsonEq, beq_eq_decide]

theorem keysClash_objectId (f : String) (dir : Int) (u sp : Bool) (a b : Doc) (i j : Nat)
    (ha : getField a f = some (.objectId i)) (hb : getField b f = some (.objectId j)) :
    keysClash ⟨[(f, dir)], u, sp⟩ a b = decide (i = j) := by
  simp [keysClash, indexKeys, ha, hb, fieldKeys, tuples, bsonEqElems, bsonEq, beq_eq_decide]

theorem keysClash_sparse_absent (f : String) (dir : Int) (u : Bool) (a b : Doc)
    (hb : getField b f = none) :
    keysClash ⟨[(f, dir)], u, true⟩ a b = false := by
  simp [keysClash, indexKeys, hb]

theorem keysClash_sparse_absent_left (f : String) (dir : Int) (u : Bool) (a b : Doc)
    (ha : getField a f = none) :
    keysClash ⟨[(f, dir)], u, true⟩ a b = false := by
  simp [keysClash, indexKeys, ha]

theorem violatesUnique_false_iff (ix : IndexSpec) (docs : List Doc) (d : Doc)
    (hu : ix.unique = true) :
    violatesUnique ix docs d = false ↔ ∀ e ∈ docs, keysClash ix e d = false := by
  simp [violatesUnique, hu]

theorem unique_string_field (f : String) (dir : Int) (sp : Bool) (docs : List Doc) (d : Doc)
    (hd : ∃ s, getField d f = some (.string s))
    (hdocs : ∀ e ∈ docs, ∃ s, getField e f = some (.string s)) :
    violatesUnique ⟨[(f, dir)], true, sp⟩ docs d = false ↔
      ∀ e ∈ docs, getField e f ≠ getField d f := by
  rw [violatesUnique_false_iff _ _ _ rfl]
  obtain ⟨t, ht⟩ := hd
  constructor
  · intro h e he
    obtain ⟨s, hs⟩ := hdocs e he
    have := h e he
    rw [keysClash_string f dir true sp e d s t hs ht] at this
    rw [hs, ht]
    intro heq
    injection heq with heq
    injection heq with heq
    simp [heq] at this
  · intro h e he
    obtain ⟨s, hs⟩ := hdocs e he
    rw [keysClash_string f dir true sp e d s t hs ht]
    have := h e he
    rw [hs, ht] at this
    simp only [decide_eq_false_iff_not]
    intro heq
    exact this (by rw [heq])

theorem unique_objectId_field (f : String) (dir : Int) (sp : Bool) (docs : List Doc) (d : Doc)
    (hd : ∃ i, getField d f = some (.objectId i))
    (hdocs : ∀ e ∈ docs, ∃ i, getField e f = some (.objectId i)) :
    violatesUnique ⟨[(f, dir)], true, sp⟩ docs d = false ↔
      ∀ e ∈ docs, getField e f ≠ getField d f := by
  rw [violatesUnique_false_iff _ _ _ rfl]
  obtain ⟨t, ht⟩ := hd
  constructor
  · intro h e he
    obtain ⟨s, hs⟩ := hdocs e he
    have := h e he
    rw [keysClash_objectId f dir true sp e d s t hs ht] at this
    rw [hs, ht]
    intro heq
    injection heq with heq
    injection heq with heq
    simp [heq] at this
  · intro h e he
    obtain ⟨s, hs⟩ := hdocs e he
    rw [keysClash_objectId f dir true sp e d s t hs ht]
    have := h e he
    rw [hs, ht] at this
    simp only [decide_eq_false_iff_not]
    intro heq
    exact this (by rw [heq])

theorem unique_sparse_string_field (f : String) (dir : Int) (docs : List Doc) (d : Doc)
    (hd : ∀ v, getField d f = some v → ∃ s, v = .string s)
    (hdocs : ∀ e ∈ docs, ∀ v, getField e f = some v → ∃ s, v = .string s) :
    violatesUnique ⟨[(f, dir)], true, true⟩ docs d = false ↔
      ∀ e ∈ docs, getField d f = none ∨ getField e f ≠ getField d f := by
  rw [violatesUnique_false_iff _ _ _ rfl]
  cases hdv : getField d f with
  | none =>
    simp only [true_or, implies_true, iff_true]
    intro e _
    exact keysClash_sparse_absent f dir true e d hdv
  | some v =>
    obtain ⟨t, rfl⟩ := hd v hdv
    constructor
    · intro h e he
      right
      cases hev : getField e f with
      | none => simp
      | some w =>
        obtain ⟨s, rfl⟩ := hdocs e he w hev
        have := h e he
        rw [keysClash_string f dir true true e d s t hev hdv] at this
        intro heq
        injection heq with heq
        injection heq with heq
        simp [heq] at this
    · intro h e he
      cases hev : getField e f with
      | none => exact keysClash_sparse_absent_left f dir true e d hev
      | some w =>
        obtain ⟨s, rfl⟩ := hdocs e he w hev
        rw [keysClash_string f dir true true e d s t hev hdv]
        have := h e he
        rw [hev] at this
        simp only [decide_eq_false_iff_not]
        intro heq
        rcases this with h0 | h0
        · cases h0
        · exact h0 (by rw [heq])

/-! ## The collections under insertion -/

theorem users_insert_iff (c : Collection) (d : Doc) (c' : Collection)
    (hv : c.validator = some usersSchema) (hi : c.indexes = usersCollection.indexes)
    (hdocs : ∀ e ∈ c.docs, accepts usersSchema e = true) :
    c.insert d = .ok c' ↔
      accepts usersSchema d = true ∧
      (∀ e ∈ c.docs, getField e "username" ≠ getField d "username") ∧
      (∀ e ∈ c.docs, getField e "email" ≠ getField d "email") ∧
      (∀ e ∈ c.docs, getField d "displayName" = none ∨
        getField e "displayName" ≠ getField d "displayName") ∧
      c' = ⟨c.validator, c.indexes, c.docs ++ [d]⟩ := by
  rw [insert_eq_ok, hv, hi, usersCollection_eq]
  simp only [Option.some.injEq, forall_eq', List.forall_mem_cons, List.not_mem_nil,
    false_imp_iff, implies_true, and_true]
  constructor
  · rintro ⟨ha, ⟨h1, h2, h3, -⟩, hc⟩
    have hd := (accepts_users_iff d).mp ha
    obtain ⟨⟨s1, u1, -⟩, ⟨s2, u2, -⟩, -, -, -, -, u7, -⟩ := hd
    refine ⟨ha, ?_, ?_, ?_, hc⟩
    · refine (unique_string_field "username" 1 false c.docs d ⟨s1, u1⟩ ?_).mp h1
      intro e he
      obtain ⟨⟨s, hs, -⟩, -⟩ := (accepts_users_iff e).mp (hdocs e he)
      exact ⟨s, hs⟩
    · refine (unique_string_field "email" 1 false c.docs d ⟨s2, u2⟩ ?_).mp h2
      intro e he
      obtain ⟨-, ⟨s, hs, -⟩, -⟩ := (accepts_users_iff e).mp (hdocs e he)
      exact ⟨s, hs⟩
    · refine (unique_sparse_string_field "displayName" 1 c.docs d ?_ ?_).mp h3
      · intro v hv
        obtain ⟨s, hs, -⟩ := u7 v hv
        exact ⟨s, hs⟩
      · intro e he v hv
        obtain ⟨-, -, -, -, -, -, w7, -⟩ := (accepts_users_iff e).mp (hdocs e he)
        obtain ⟨s, hs, -⟩ := w7 v hv
        exact ⟨s, hs⟩
  · rintro ⟨ha, h1, h2, h3, hc⟩
    have hd := (accepts_users_iff d).mp ha
    obtain ⟨⟨s1, u1, -⟩, ⟨s2, u2, -⟩, -, -, -, -, u7, -⟩ := hd
    refine ⟨ha, ⟨?_, ?_, ?_, ?_, ?_, ?_⟩, hc⟩
    · refine (unique_string_field "username" 1 false c.docs d ⟨s1, u1⟩ ?_).mpr h1
      intro e he
      obtain ⟨⟨s, hs, -⟩, -⟩ := (accepts_users_iff e).mp (hdocs e he)
      exact ⟨s, hs⟩
    · refine (unique_string_field "email" 1 false c.docs d ⟨s2, u2⟩ ?_).mpr h2
      intro e he
      obtain ⟨-, ⟨s, hs, -⟩, -⟩ := (accepts_users_iff e).mp (hdocs e he)
      exact ⟨s, hs⟩
    · refine (unique_sparse_string_field "displayName" 1 c.docs d ?_ ?_).mpr h3
      · intro v hv
        obtain ⟨s, hs, -⟩ := u7 v hv
        exact ⟨s, hs⟩
      · intro e he v hv
        obtain ⟨-, -, -, -, -, -, w7, -⟩ := (accepts_users_iff e).mp (hdocs e he)
        obtain ⟨s, hs, -⟩ := w7 v hv
        exact ⟨s, hs⟩
    · rfl
    · rfl
    · rfl

theorem users_reachable_shape (c : Collection) (h : Reachable usersCollection c) :
    c.validator = some usersSchema ∧ c.indexes = usersCollection.indexes ∧
      ∀ e ∈ c.docs, accepts usersSchema e = true := by
  induction h with
  | start => exact ⟨rfl, rfl, by intro e he; cases he⟩
  | insert d _ hins ih =>
    obtain ⟨hv, hi, hdocs⟩ := ih
    obtain ⟨ha, -, -, -, rfl⟩ := (users_insert_iff _ d _ hv hi hdocs).mp hins
    refine ⟨hv, hi, ?_⟩
    intro e he
    rcases List.mem_append.mp he with h | h
    · exact hdocs e h
    · rw [List.mem_singleton.mp h]; exact ha

theorem users_reachable_pairwise (c : Collection) (h : Reachable usersCollection c) :
    c.docs.Pairwise (fun a b =>
      getField a "username" ≠ getField b "username" ∧
      getField a "email" ≠ getField b "email" ∧
      (getField b "displayName" = none ∨
        getField a "displayName" ≠ getField b "displayName")) := by
  induction h with
  | start => exact List.Pairwise.nil
  | @insert c c' d hr hins ih =>
    obtain ⟨hv, hi, hdocs⟩ := users_reachable_shape c hr
    obtain ⟨-, h1, h2, h3, rfl⟩ := (users_insert_iff _ d _ hv hi hdocs).mp hins
    refine List.pairwise_append.mpr ⟨ih, List.pairwise_singleton _ _, ?_⟩
    intro a ha b hb
    rw [List.mem_singleton.mp hb]
    exact ⟨h1 a ha, h2 a ha, h3 a ha⟩

theorem connections_insert_iff (c : Collection) (d : Doc) (c' : Collection)
    (hv : c.validator = some mentorshipConnectionsSchema)
    (hi : c.indexes = connectionsCollection.indexes)
    (hdocs : ∀ e ∈ c.docs, accepts mentorshipConnectionsSchema e = true) :
    c.insert d = .ok c' ↔
      accepts mentorshipConnectionsSchema d = true ∧
      (∀ e ∈ c.docs, getField e "requestId" ≠ getField d "requestId") ∧
      c' = ⟨c.validator, c.indexes, c.docs ++ [d]⟩ := by
  rw [insert_eq_ok, hv, hi, connectionsCollection_eq]
  simp only [Option.some.injEq, forall_eq', List.forall_mem_cons, List.not_mem_nil,
    false_imp_iff, implies_true, and_true]
  have key : accepts mentorshipConnectionsSchema d = true →
      (violatesUnique ⟨[("requestId", 1)], true, false⟩ c.docs d = false ↔
        ∀ e ∈ c.docs, getField e "requestId" ≠ getField d "requestId") := by
    intro ha
    obtain ⟨-, -, hr, -⟩ := (accepts_connections_iff d).mp ha
    refine unique_objectId_field "requestId" 1 false c.docs d hr ?_
    intro e he
    obtain ⟨-, -, hs, -⟩ := (accepts_connections_iff e).mp (hdocs e he)
    exact hs
  constructor
  · rintro ⟨ha, ⟨-, -, h3, -⟩, hc⟩
    exact ⟨ha, (key ha).mp h3, hc⟩
  · rintro ⟨ha, h3, hc⟩
    exact ⟨ha, ⟨rfl, rfl, (key ha).mpr h3, rfl, rfl, rfl, rfl, rfl⟩, hc⟩

theorem connections_reachable_shape (c : Collection)
    (h : Reachable connectionsCollection c) :
    c.validator = some mentorshipConnectionsSchema ∧
      c.indexes = connectionsCollection.indexes ∧
      ∀ e ∈ c.docs, accepts mentorshipConnectionsSchema e = true := by
  induction h with
  | start => exact ⟨rfl, rfl, by intro e he; cases he⟩
  | insert d _ hins ih =>
    obtain ⟨hv, hi, hdocs⟩ := ih
    obtain ⟨ha, -, rfl⟩ := (connections_insert_iff _ d _ hv hi hdocs).mp hins
    refine ⟨hv, hi, ?_⟩
    intro e he
    rcases List.mem_append.mp he with h | h
    · exact hdocs e h
    · rw [List.mem_singleton.mp h]; exact ha

theorem connections_reachable_pairwise (c : Collection)
    (h : Reachable connectionsCollection c) :
    c.docs.Pairwise (fun a b => getField a "requestId" ≠ getField b "requestId") := by
  induction h with
  | start => exact List.Pairwise.nil
  | @insert c c' d hr hins ih =>
    obtain ⟨hv, hi, hdocs⟩ := connections_reachable_shape c hr
    obtain ⟨-, h1, rfl⟩ := (connections_insert_iff _ d _ hv hi hdocs).mp hins
    refine List.pairwise_append.mpr ⟨ih, List.pairwise_singleton _ _, ?_⟩
    intro a ha b hb
    rw [List.mem_singleton.mp hb]
    exact h1 a ha

/-! ## The claims -/

set_option maxRecDepth 100000 in
/-- C1: the `createIndex` calls of the script are exactly the index plan of
section 4.1: twenty calls (6 on `users`, 6 on `mentorship_requests`, 8 on
`mentorship_connections`); each row of the plan has exactly one call on its
collection with its key fields in its order and every call belongs to a row;
every key is ascending; `unique: true` is written on exactly `users.username`,
`users.email`, `users.displayName` and `mentorship_connections.requestId`,
`sparse: true` on exactly `users.displayName`, and every other call has no
options document; each key the plan marks multikey is declared an array by the
validator of its collection. -/
theorem createIndexCalls_match_indexPlan :
    createIndexCalls = indexPlan.map PlanRow.call ∧
    createIndexCalls.length = 20 ∧
    (createIndexCalls.filter (fun c => c.1 == "users")).length = 6 ∧
    (createIndexCalls.filter (fun c => c.1 == "mentorship_requests")).length = 6 ∧
    (createIndexCalls.filter (fun c => c.1 == "mentorship_connections")).length = 8 ∧
    (∀ r ∈ indexPlan,
      (createIndexCalls.filter (fun c =>
        c.1 == r.collection && c.2.1.map Prod.fst == r.keys)).length = 1) ∧
    (∀ c ∈ createIndexCalls,
      ∃ r ∈ indexPlan, r.collection = c.1 ∧ r.keys = c.2.1.map Prod.fst) ∧
    (∀ c ∈ createIndexCalls, ∀ k ∈ c.2.1, k.2 = 1) ∧
    (∀ c ∈ createIndexCalls,
      (c.2.2.bind (fun o => o.unique) = some true ↔
        (c.1, c.2.1.map Prod.fst) ∈
          [("users", ["username"]), ("users", ["email"]), ("users", ["displayName"]),
           ("mentorship_connections", ["requestId"])])) ∧
    (∀ c ∈ createIndexCalls,
      (c.2.2.bind (fun o => o.sparse) = some true ↔
        (c.1, c.2.1.map Prod.fst) = ("users", ["displayName"]))) ∧
    (∀ c ∈ createIndexCalls,
      c.2.2.bind (fun o => o.unique) ≠ some true → c.2.2 = none) ∧
    (∀ r ∈ indexPlan, r.option = .multikey →
      r.keys.length = 1 ∧
      ∀ f ∈ r.keys,
        (validatorOf r.collection).bind (fun s => declaredType s f) = some .array) := by
  refine ⟨by decide, by decide, by decide, by decide, by decide, by decide, by decide,
    by decide, by decide, by decide, by decide, by decide⟩

set_option maxRecDepth 100000 in
/-- C10: the script creates exactly one principal, `sharespace_app`, with
exactly one role, `readWrite` on `sharespace`; `sharespace` is the one database
it selects with `getSiblingDB`, and whatever database the session started on,
the run succeeds and leaves the principal, the three collections and all twenty
indexes in `sharespace`; the `createUser` call precedes every
`createCollection` call and every `createCollection` call precedes every
`createIndex` call. -/
theorem script_creates_one_readWrite_principal :
    createUserCalls =
      [("sharespace_app", "sharespace_password", [⟨"readWrite", "sharespace"⟩])] ∧
    selectedDatabases = ["sharespace"] ∧
    (∀ db0 : String, ∃ s, provisioned db0 = .ok s ∧
      s.principals.map (fun p => (p.db, p.user, p.roles)) =
        [("sharespace", "sharespace_app", [⟨"readWrite", "sharespace"⟩])] ∧
      s.collections.map (fun kc => kc.1) =
        [("sharespace", "users"), ("sharespace", "mentorship_requests"),
         ("sharespace", "mentorship_connections")] ∧
      (s.collections.map (fun kc => kc.2.indexes.length)).sum = 20) ∧
    (∀ i j : Fin script.length, (script.get i).isCreateUser = true →
      (script.get j).isCreateCollection = true → i < j) ∧
    (∀ i j : Fin script.length, (script.get i).isCreateCollection = true →
      (script.get j).isCreateIndex = true → i < j) := by
  refine ⟨by decide, by decide, ?_, by decide, by decide⟩
  intro db0
  exact ⟨provisionedServer, provisioned_eq db0, by decide, by decide, by decide⟩

/-- C2: whatever its other fields, a document whose `role` is not the string
`admin` or `user` (missing and non-string included), or whose `password` is
missing, not a string, or a string of fewer than 8 characters, is rejected by
the `users` validator. -/
theorem users_rejects_bad_role_or_password (d : Doc)
    (h : (getField d "role" ≠ some (.string "admin") ∧
          getField d "role" ≠ some (.string "user")) ∨
         (∀ s, getField d "password" = some (.string s) → s.length < 8)) :
    accepts usersSchema d = false := by
  cases ha : accepts usersSchema d with
  | false => rfl
  | true =>
    exfalso
    obtain ⟨-, -, ⟨p, hp, hpl⟩, -, ⟨r, hr, hrv⟩, -⟩ := (accepts_users_iff d).mp ha
    rcases h with ⟨h1, h2⟩ | h
    · rcases hrv with rfl | rfl
      · exact h1 hr
      · exact h2 hr
    · have := h p hp
      omega

/-- Witness for C2: the scenario user with role `guest`. -/
theorem users_rejects_bad_role_or_password_witness :
    ((getField (userDoc "abc" "a@b.com" "12345678" "Ann Bee" "guest" false) "role" ≠
        some (.string "admin") ∧
      getField (userDoc "abc" "a@b.com" "12345678" "Ann Bee" "guest" false) "role" ≠
        some (.string "user")) ∨
     (∀ s, getField (userDoc "abc" "a@b.com" "12345678" "Ann Bee" "guest" false) "password" =
        some (.string s) → s.length < 8)) ∧
    accepts usersSchema (userDoc "abc" "a@b.com" "12345678" "Ann Bee" "guest" false) = false :=
  have h : getField (userDoc "abc" "a@b.com" "12345678" "Ann Bee" "guest" false) "role" ≠
        some (.string "admin") ∧
      getField (userDoc "abc" "a@b.com" "12345678" "Ann Bee" "guest" false) "role" ≠
        some (.string "user") := by
    constructor <;> intro h <;> injection h with h <;> injection h with h <;>
      exact absurd h (by decide)
  ⟨Or.inl h, users_rejects_bad_role_or_password _ (Or.inl h)⟩

/-- C3: a document with the six required fields in range (`username` a string
of 3 to 30 characters, `email` a string matching the pattern, `password` a
string of at least 8 characters, `fullname` a string of 2 to 100 characters,
`role` `admin` or `user`, `isVerified` a boolean) and none of the six optional
fields is accepted by the `users` validator; the scenario user is such a
document, is accepted, and its insertion into the freshly provisioned `users`
collection succeeds. -/
theorem users_accepts_required_fields (d : Doc) (username email password fullname role : String)
    (isVerified : Bool)
    (hu : getField d "username" = some (.string username))
    (hul : 3 ≤ username.length ∧ username.length ≤ 30)
    (he : getField d "email" = some (.string email))
    (hem : emailPattern.test email = true)
    (hp : getField d "password" = some (.string password))
    (hpl : 8 ≤ password.length)
    (hf : getField d "fullname" = some (.string fullname))
    (hfl : 2 ≤ fullname.length ∧ fullname.length ≤ 100)
    (hr : getField d "role" = some (.string role))
    (hrv : role = "admin" ∨ role = "user")
    (hv : getField d "isVerified" = some (.bool isVerified))
    (hopt : ∀ f ∈ ["displayName", "isAnonymous", "isMentor", "isMentee", "mentorshipTopics",
      "availableForMentoring"], getField d f = none) :
    accepts usersSchema d = true ∧
    accepts usersSchema sampleUser = true ∧
    usersCollection.insert sampleUser =
      .ok ⟨usersCollection.validator, usersCollection.indexes, [sampleUser]⟩ := by
  refine ⟨?_, by decide, ?_⟩
  · rw [accepts_users_iff]
    simp only [List.forall_mem_cons, List.not_mem_nil, false_imp_iff, implies_true,
      and_true] at hopt
    obtain ⟨o1, o2, o3, o4, o5, o6⟩ := hopt
    refine ⟨⟨_, hu, hul⟩, ⟨_, he, hem⟩, ⟨_, hp, hpl⟩, ⟨_, hf, hfl⟩, ⟨_, hr, hrv⟩, ⟨_, hv⟩,
      ?_, ?_, ?_, ?_, ?_, ?_⟩
    · intro v h; rw [o1] at h; cases h
    · intro v h; rw [o2] at h; cases h
    · intro v h; rw [o3] at h; cases h
    · intro v h; rw [o4] at h; cases h
    · intro v h; rw [o5] at h; cases h
    · intro v h; rw [o6] at h; cases h
  · rw [users_insert_iff usersCollection sampleUser _ rfl rfl (by intro e he; cases he)]
    refine ⟨by decide, ?_, ?_, ?_, rfl⟩ <;> intro e he <;> cases he

/-- Witness for C3: the scenario user itself. -/
theorem users_accepts_required_fields_witness :
    getField sampleUser "username" = some (.string "abc") ∧
    (3 ≤ "abc".length ∧ "abc".length ≤ 30) ∧
    getField sampleUser "email" = some (.string "a@b.com") ∧
    emailPattern.test "a@b.com" = true ∧
    getField sampleUser "password" = some (.string "12345678") ∧
    8 ≤ "12345678".length ∧
    getField sampleUser "fullname" = some (.string "Ann Bee") ∧
    (2 ≤ "Ann Bee".length ∧ "Ann Bee".length ≤ 100) ∧
    getField sampleUser "role" = some (.string "user") ∧
    ("user" = "admin" ∨ "user" = "user") ∧
    getField sampleUser "isVerified" = some (.bool false) ∧
    (∀ f ∈ ["displayName", "isAnonymous", "isMentor", "isMentee", "mentorshipTopics",
      "availableForMentoring"], getField sampleUser f = none) ∧
    (accepts usersSchema sampleUser = true ∧
      accepts usersSchema sampleUser = true ∧
      usersCollection.insert sampleUser =
        .ok ⟨usersCollection.validator, usersCollection.indexes, [sampleUser]⟩) :=
  have hopt : ∀ f ∈ ["displayName", "isAnonymous", "isMentor", "isMentee", "mentorshipTopics",
      "availableForMentoring"], getField sampleUser f = none := by
    intro f hf
    simp only [List.mem_cons, List.not_mem_nil, or_false] at hf
    rcases hf with rfl | rfl | rfl | rfl | rfl | rfl <;> rfl
  ⟨rfl, by decide, rfl, by decide, rfl, by decide, rfl, by decide, rfl, Or.inr rfl, rfl, hopt,
    users_accepts_required_fields sampleUser "abc" "a@b.com" "12345678" "Ann Bee" "user" false
      rfl (by decide) rfl (by decide) rfl (by decide) rfl (by decide) rfl (Or.inr rfl) rfl
      hopt⟩

/-- C6: the `mentorship_requests` validator rejects a document whose `topics`
is an empty array, is missing, is not an array, or holds a non-string element,
and rejects a document whose `status` is not one of `pending`, `accepted`,
`rejected`, `canceled`; it accepts every document with `menteeId` and
`mentorId` ObjectIds, `status` `pending`, `topics` `["go"]`, `createdAt` and
`updatedAt` present and no `message`, in particular the scenario request. -/
theorem requests_validator_topics_and_status (d : Doc)
    (h : (∀ xs, getField d "topics" = some (.array xs) →
            xs = [] ∨ ∃ x ∈ xs, ∀ s, x ≠ .string s) ∨
         (getField d "status" ≠ some (.string "pending") ∧
          getField d "status" ≠ some (.string "accepted") ∧
          getField d "status" ≠ some (.string "rejected") ∧
          getField d "status" ≠ some (.string "canceled"))) :
    accepts mentorshipRequestsSchema d = false ∧
    (∀ (e : Doc) (mentee mentor : Nat) (c u : BVal),
      getField e "menteeId" = some (.objectId mentee) →
      getField e "mentorId" = some (.objectId mentor) →
      getField e "status" = some (.string "pending") →
      getField e "topics" = some (.array [.string "go"]) →
      getField e "createdAt" = some c →
      getField e "updatedAt" = some u →
      getField e "message" = none →
      accepts mentorshipRequestsSchema e = true) ∧
    (∀ (mentee mentor : Nat) (c u : BVal),
      accepts mentorshipRequestsSchema
        (requestDoc mentee mentor "pending" [.string "go"] c u) = true) := by
  have gen : ∀ (e : Doc) (mentee mentor : Nat) (c u : BVal),
      getField e "menteeId" = some (.objectId mentee) →
      getField e "mentorId" = some (.objectId mentor) →
      getField e "status" = some (.string "pending") →
      getField e "topics" = some (.array [.string "go"]) →
      getField e "createdAt" = some c →
      getField e "updatedAt" = some u →
      getField e "message" = none →
      accepts mentorshipRequestsSchema e = true := by
    intro e mentee mentor c u h1 h2 h3 h4 h5 h6 h7
    rw [accepts_requests_iff]
    refine ⟨⟨_, h1⟩, ⟨_, h2⟩, ⟨_, h3, Or.inl rfl⟩, ⟨_, h4, by simp, ?_⟩, ⟨_, h5⟩, ⟨_, h6⟩, ?_⟩
    · intro x hx
      rw [List.mem_singleton.mp hx]
      exact ⟨_, rfl⟩
    · intro v hv
      rw [h7] at hv
      cases hv
  refine ⟨?_, gen, ?_⟩
  · cases ha : accepts mentorshipRequestsSchema d with
    | false => rfl
    | true =>
      exfalso
      obtain ⟨-, -, ⟨s, hs, hsv⟩, ⟨xs, hx, hlen, hall⟩, -⟩ := (accepts_requests_iff d).mp ha
      rcases h with h | ⟨h1, h2, h3, h4⟩
      · rcases h xs hx with rfl | ⟨x, hxm, hne⟩
        · simp at hlen
        · obtain ⟨t, ht⟩ := hall x hxm
          exact hne t ht
      · rcases hsv with rfl | rfl | rfl | rfl
        · exact h1 hs
        · exact h2 hs
        · exact h3 hs
        · exact h4 hs
  · intro mentee mentor c u
    exact gen _ mentee mentor c u rfl rfl rfl rfl rfl rfl rfl

/-- Witness for C6: the scenario request with its `topics` emptied. -/
theorem requests_validator_topics_and_status_witness :
    ((∀ xs, getField (requestDoc 1 2 "pending" [] (.date 0) (.date 0)) "topics" =
            some (.array xs) → xs = [] ∨ ∃ x ∈ xs, ∀ s, x ≠ .string s) ∨
     (getField (requestDoc 1 2 "pending" [] (.date 0) (.date 0)) "status" ≠
        some (.string "pending") ∧
      getField (requestDoc 1 2 "pending" [] (.date 0) (.date 0)) "status" ≠
        some (.string "accepted") ∧
      getField (requestDoc 1 2 "pending" [] (.date 0) (.date 0)) "status" ≠
        some (.string "rejected") ∧
      getField (requestDoc 1 2 "pending" [] (.date 0) (.date 0)) "status" ≠
        some (.string "canceled"))) ∧
    accepts mentorshipRequestsSchema (requestDoc 1 2 "pending" [] (.date 0) (.date 0)) = false ∧
    accepts mentorshipRequestsSchema
      (requestDoc 1 2 "pending" [.string "go"] (.date 0) (.date 0)) = true :=
  have h : ∀ xs, getField (requestDoc 1 2 "pending" [] (.date 0) (.date 0)) "topics" =
      some (.array xs) → xs = [] ∨ ∃ x ∈ xs, ∀ s, x ≠ .string s := by
    intro xs hxs
    left
    injection hxs with hxs
    injection hxs with hxs
    exact hxs.symm
  ⟨Or.inl h,
    (requests_validator_topics_and_status _ (Or.inl h)).1,
    (requests_validator_topics_and_status _ (Or.inl h)).2.2 1 2 (.date 0) (.date 0)⟩

/-- C7: in a document accepted by the `mentorship_connections` validator,
`menteeRating` and `mentorRating`, when present, are BSON ints between 1 and 5;
a document whose rating is 0, 6, the double 3.5 or a string is rejected, and a
document without ratings that meets the other constraints is accepted. -/
theorem connections_ratings_in_range (d : Doc)
    (h : accepts mentorshipConnectionsSchema d = true) :
    (∀ r ∈ ["menteeRating", "mentorRating"], ∀ v, getField d r = some v →
      ∃ n, v = .int n ∧ 1 ≤ n ∧ n ≤ 5) ∧
    (∀ r ∈ ["menteeRating", "mentorRating"],
      ∀ v ∈ [BVal.int 0, .int 6, .double (.finite 7 (-1)), .string "3"],
      ∀ e : Doc, getField e r = some v → accepts mentorshipConnectionsSchema e = false) ∧
    (∀ (e : Doc) (mentee mentor req : Nat) (status : String) (topics : List BVal)
        (s c u : BVal),
      getField e "menteeId" = some (.objectId mentee) →
      getField e "mentorId" = some (.objectId mentor) →
      getField e "requestId" = some (.objectId req) →
      getField e "status" = some (.string status) →
      status ∈ ["active", "paused", "completed", "ended"] →
      getField e "topics" = some (.array topics) →
      topics ≠ [] → (∀ x ∈ topics, ∃ t, x = .string t) →
      getField e "startedAt" = some s →
      getField e "createdAt" = some c →
      getField e "updatedAt" = some u →
      getField e "menteeRating" = none →
      getField e "mentorRating" = none →
      accepts mentorshipConnectionsSchema e = true) := by
  have hin : ∀ (e : Doc), accepts mentorshipConnectionsSchema e = true →
      ∀ r ∈ ["menteeRating", "mentorRating"], ∀ v, getField e r = some v →
        ∃ n, v = .int n ∧ 1 ≤ n ∧ n ≤ 5 := by
    intro e he r hr v hv
    obtain ⟨-, -, -, -, -, -, -, -, h1, h2⟩ := (accepts_connections_iff e).mp he
    simp only [List.mem_cons, List.not_mem_nil, or_false] at hr
    rcases hr with rfl | rfl
    · exact h1 v hv
    · exact h2 v hv
  refine ⟨hin d h, ?_, ?_⟩
  · intro r hr v hv e hev
    cases ha : accepts mentorshipConnectionsSchema e with
    | false => rfl
    | true =>
      exfalso
      obtain ⟨n, hn, h1, h5⟩ := hin e ha r hr v hev
      simp only [List.mem_cons, List.not_mem_nil, or_false] at hv
      rcases hv with rfl | rfl | rfl | rfl
      · injection hn with hn; omega
      · injection hn with hn; omega
      · cases hn
      · cases hn
  · intro e mentee mentor req status topics s c u h1 h2 h3 h4 h4v h5 h5n h5s h6 h7 h8 h9 h10
    rw [accepts_connections_iff]
    refine ⟨⟨_, h1⟩, ⟨_, h2⟩, ⟨_, h3⟩, ⟨_, h4, ?_⟩, ⟨_, h5, ?_, h5s⟩, ⟨_, h6⟩, ⟨_, h7⟩,
      ⟨_, h8⟩, ?_, ?_⟩
    · simpa using h4v
    · exact List.length_pos.mpr h5n
    · intro v hv; rw [h9] at hv; cases hv
    · intro v hv; rw [h10] at hv; cases hv

/-- Witness for C7: a connection rated 4 by the mentee. -/
theorem connections_ratings_in_range_witness :
    accepts mentorshipConnectionsSchema (connectionDoc 7 (.date 0) [("menteeRating", .int 4)]) = true ∧
    (∀ r ∈ ["menteeRating", "mentorRating"], ∀ v,
      getField (connectionDoc 7 (.date 0) [("menteeRating", .int 4)]) r = some v →
        ∃ n, v = .int n ∧ 1 ≤ n ∧ n ≤ 5) ∧
    accepts mentorshipConnectionsSchema (connectionDoc 7 (.date 0) [("menteeRating", .int 0)]) = false ∧
    accepts mentorshipConnectionsSchema (connectionDoc 7 (.date 0) [("mentorRating", .int 6)]) = false ∧
    accepts mentorshipConnectionsSchema
      (connectionDoc 7 (.date 0) [("menteeRating", .double (.finite 7 (-1)))]) = false ∧
    accepts mentorshipConnectionsSchema
      (connectionDoc 7 (.date 0) [("mentorRating", .string "3")]) = false ∧
    accepts mentorshipConnectionsSchema (connectionDoc 7 (.date 0) []) = true :=
  have h := connections_ratings_in_range (connectionDoc 7 (.date 0) [("menteeRating", .int 4)])
    (by decide)
  ⟨by decide, h.1,
    h.2.1 "menteeRating" (by simp) (.int 0) (by simp) _ rfl,
    h.2.1 "mentorRating" (by simp) (.int 6) (by simp) _ rfl,
    h.2.1 "menteeRating" (by simp) (.double (.finite 7 (-1))) (by simp) _ rfl,
    h.2.1 "mentorRating" (by simp) (.string "3") (by simp) _ rfl,
    h.2.2 _ 1 2 7 "active" [.string "go"] (.date 0) (.date 0) (.date 0) rfl rfl rfl rfl
      (by simp) rfl (by simp) (by simp) rfl rfl rfl rfl rfl⟩

/-- C9, counterexample: a request whose `createdAt` is the string `yesterday`
and whose `updatedAt` is the number 5, and a connection whose `startedAt` is
the string `yesterday`, are accepted by their validators, although none of
these values is a date. -/
theorem timestamps_typed_counterexample :
    accepts mentorshipRequestsSchema
      (requestDoc 1 2 "pending" [.string "go"] (.string "yesterday") (.double (.finite 5 0))) = true ∧
    getField (requestDoc 1 2 "pending" [.string "go"] (.string "yesterday") (.double (.finite 5 0))) "createdAt" =
      some (.string "yesterday") ∧
    getField (requestDoc 1 2 "pending" [.string "go"] (.string "yesterday") (.double (.finite 5 0))) "updatedAt" =
      some (.double (.finite 5 0)) ∧
    (BVal.string "yesterday").bsonType ≠ .date ∧
    (BVal.double (.finite 5 0)).bsonType ≠ .date ∧
    accepts mentorshipConnectionsSchema (connectionDoc 7 (.string "yesterday") []) = true ∧
    getField (connectionDoc 7 (.string "yesterday") []) "startedAt" =
      some (.string "yesterday") ∧
    ¬ (∀ d : Doc, accepts mentorshipRequestsSchema d = true →
        ∃ t, getField d "createdAt" = some (.date t)) :=
  ⟨by decide, rfl, rfl, by decide, by decide, by decide, rfl,
    fun h => by
      obtain ⟨t, ht⟩ := h (requestDoc 1 2 "pending" [.string "go"] (.string "yesterday") (.double (.finite 5 0)))
        (by decide)
      cases ht⟩

/-- C9, as amended: a document accepted by the `mentorship_requests` validator
has `createdAt` and `updatedAt` present, and one accepted by the
`mentorship_connections` validator has `startedAt`, `createdAt` and `updatedAt`
present; the validators do not constrain the type of these fields: an accepted
document stays accepted when one of them is replaced by any BSON value. -/
theorem timestamps_required_untyped (d e : Doc)
    (hd : accepts mentorshipRequestsSchema d = true)
    (he : accepts mentorshipConnectionsSchema e = true) :
    (∀ f ∈ ["createdAt", "updatedAt"],
      (∃ a, getField d f = some a) ∧
      ∀ v : BVal, accepts mentorshipRequestsSchema (setField d f v) = true) ∧
    (∀ f ∈ ["startedAt", "createdAt", "updatedAt"],
      (∃ a, getField e f = some a) ∧
      ∀ v : BVal, accepts mentorshipConnectionsSchema (setField e f v) = true) := by
  constructor
  · obtain ⟨h1, h2, h3, h4, h5, h6, h7⟩ := (accepts_requests_iff d).mp hd
    intro f hf
    simp only [List.mem_cons, List.not_mem_nil, or_false] at hf
    rcases hf with rfl | rfl
    · refine ⟨h5, fun v => ?_⟩
      rw [accepts_requests_iff]
      simp only [getField_setField, String.reduceEq, if_false, if_true]
      exact ⟨h1, h2, h3, h4, ⟨v, rfl⟩, h6, h7⟩
    · refine ⟨h6, fun v => ?_⟩
      rw [accepts_requests_iff]
      simp only [getField_setField, String.reduceEq, if_false, if_true]
      exact ⟨h1, h2, h3, h4, h5, ⟨v, rfl⟩, h7⟩
  · obtain ⟨h1, h2, h3, h4, h5, h6, h7, h8, h9, h10⟩ := (accepts_connections_iff e).mp he
    intro f hf
    simp only [List.mem_cons, List.not_mem_nil, or_false] at hf
    rcases hf with rfl | rfl | rfl
    · refine ⟨h6, fun v => ?_⟩
      rw [accepts_connections_iff]
      simp only [getField_setField, String.reduceEq, if_false, if_true]
      exact ⟨h1, h2, h3, h4, h5, ⟨v, rfl⟩, h7, h8, h9, h10⟩
    · refine ⟨h7, fun v => ?_⟩
      rw [accepts_connections_iff]
      simp only [getField_setField, String.reduceEq, if_false, if_true]
      exact ⟨h1, h2, h3, h4, h5, h6, ⟨v, rfl⟩, h8, h9, h10⟩
    · refine ⟨h8, fun v => ?_⟩
      rw [accepts_connections_iff]
      simp only [getField_setField, String.reduceEq, if_false, if_true]
      exact ⟨h1, h2, h3, h4, h5, h6, h7, ⟨v, rfl⟩, h9, h10⟩

/-- Witness for C9 as amended: the scenario request and a connection. -/
theorem timestamps_required_untyped_witness :
    accepts mentorshipRequestsSchema (requestDoc 1 2 "pending" [.string "go"] (.date 0) (.date 0)) = true ∧
    accepts mentorshipConnectionsSchema (connectionDoc 7 (.date 0) []) = true ∧
    ((∀ f ∈ ["createdAt", "updatedAt"],
      (∃ a, getField (requestDoc 1 2 "pending" [.string "go"] (.date 0) (.date 0)) f = some a) ∧
      ∀ v : BVal, accepts mentorshipRequestsSchema
        (setField (requestDoc 1 2 "pending" [.string "go"] (.date 0) (.date 0)) f v) = true) ∧
    (∀ f ∈ ["startedAt", "createdAt", "updatedAt"],
      (∃ a, getField (connectionDoc 7 (.date 0) []) f = some a) ∧
      ∀ v : BVal, accepts mentorshipConnectionsSchema (setField (connectionDoc 7 (.date 0) []) f v) = true)) :=
  ⟨by decide, by decide,
    timestamps_required_untyped (requestDoc 1 2 "pending" [.string "go"] (.date 0) (.date 0)) (connectionDoc 7 (.date 0) [])
      (by decide) (by decide)⟩

/-- C4: in every state the `users` collection reaches from its provisioned
(empty) state by accepted inserts, no two stored documents have the same
`username` and no two have the same `email`; an insert whose `username` or
`email` equals that of a stored document is rejected. -/
theorem users_username_email_unique (c : Collection) (h : Reachable usersCollection c) :
    c.docs.Pairwise (fun a b =>
      getField a "username" ≠ getField b "username" ∧
      getField a "email" ≠ getField b "email") ∧
    (∀ d : Doc,
      (∃ e ∈ c.docs, getField e "username" = getField d "username" ∨
        getField e "email" = getField d "email") →
      ∃ err, c.insert d = .error err) := by
  obtain ⟨hv, hi, hdocs⟩ := users_reachable_shape c h
  constructor
  · exact (users_reachable_pairwise c h).imp (fun hab => ⟨hab.1, hab.2.1⟩)
  · rintro d ⟨e, he, heq⟩
    apply insert_error_of_not_ok
    intro c' hins
    obtain ⟨-, h1, h2, -⟩ := (users_insert_iff c d c' hv hi hdocs).mp hins
    rcases heq with heq | heq
    · exact h1 e he heq
    · exact h2 e he heq

/-- Witness for C4: the state after the scenario user was inserted; inserting
the same user again is rejected. -/
theorem users_username_email_unique_witness :
    Reachable usersCollection
      ⟨usersCollection.validator, usersCollection.indexes, [sampleUser]⟩ ∧
    [sampleUser].Pairwise (fun a b =>
      getField a "username" ≠ getField b "username" ∧
      getField a "email" ≠ getField b "email") ∧
    ∃ err, Collection.insert
      ⟨usersCollection.validator, usersCollection.indexes, [sampleUser]⟩ sampleUser =
        .error err :=
  have hr : Reachable usersCollection
      ⟨usersCollection.validator, usersCollection.indexes, [sampleUser]⟩ :=
    Reachable.insert sampleUser Reachable.start
      ((users_insert_iff usersCollection sampleUser _ rfl rfl
        (fun e he => absurd he (List.not_mem_nil e))).mpr
        ⟨by decide, fun e he => absurd he (List.not_mem_nil e),
          fun e he => absurd he (List.not_mem_nil e),
          fun e he => absurd he (List.not_mem_nil e), rfl⟩)
  ⟨hr, (users_username_email_unique _ hr).1,
    (users_username_email_unique _ hr).2 sampleUser
      ⟨sampleUser, List.mem_singleton.mpr rfl, Or.inl rfl⟩⟩

/-- C8: in every state the `mentorship_connections` collection reaches from
its provisioned (empty) state by accepted inserts, the stored documents have
pairwise distinct `requestId` values; an insert whose `requestId` equals that
of a stored connection is rejected; every stored document, like every accepted
one, has a `requestId`, and it is an ObjectId. -/
theorem connections_requestId_unique (c : Collection)
    (h : Reachable connectionsCollection c) :
    c.docs.Pairwise (fun a b => getField a "requestId" ≠ getField b "requestId") ∧
    (∀ d : Doc, (∃ e ∈ c.docs, getField e "requestId" = getField d "requestId") →
      ∃ err, c.insert d = .error err) ∧
    (∀ e ∈ c.docs, ∃ i, getField e "requestId" = some (.objectId i)) ∧
    (∀ d : Doc, accepts mentorshipConnectionsSchema d = true →
      ∃ i, getField d "requestId" = some (.objectId i)) := by
  obtain ⟨hv, hi, hdocs⟩ := connections_reachable_shape c h
  have hreq : ∀ d : Doc, accepts mentorshipConnectionsSchema d = true →
      ∃ i, getField d "requestId" = some (.objectId i) := by
    intro d hd
    obtain ⟨-, -, h3, -⟩ := (accepts_connections_iff d).mp hd
    exact h3
  refine ⟨connections_reachable_pairwise c h, ?_, fun e he => hreq e (hdocs e he), hreq⟩
  rintro d ⟨e, he, heq⟩
  apply insert_error_of_not_ok
  intro c' hins
  obtain ⟨-, h1, -⟩ := (connections_insert_iff c d c' hv hi hdocs).mp hins
  exact h1 e he heq

/-- Witness for C8: the state after one connection for request 7 was inserted;
a second connection for request 7 is rejected. -/
theorem connections_requestId_unique_witness :
    Reachable connectionsCollection
      ⟨connectionsCollection.validator, connectionsCollection.indexes,
        [connectionDoc 7 (.date 0) []]⟩ ∧
    [connectionDoc 7 (.date 0) []].Pairwise
      (fun a b => getField a "requestId" ≠ getField b "requestId") ∧
    ∃ err, Collection.insert
      ⟨connectionsCollection.validator, connectionsCollection.indexes,
        [connectionDoc 7 (.date 0) []]⟩
      (connectionDoc 7 (.date 1) [("menteeRating", .int 5)]) = .error err :=
  have hr : Reachable connectionsCollection
      ⟨connectionsCollection.validator, connectionsCollection.indexes,
        [connectionDoc 7 (.date 0) []]⟩ :=
    Reachable.insert (connectionDoc 7 (.date 0) []) Reachable.start
      ((connections_insert_iff connectionsCollection (connectionDoc 7 (.date 0) []) _ rfl rfl
        (fun e he => absurd he (List.not_mem_nil e))).mpr
        ⟨by decide, fun e he => absurd he (List.not_mem_nil e), rfl⟩)
  ⟨hr, (connections_requestId_unique _ hr).1,
    (connections_requestId_unique _ hr).2.1
      (connectionDoc 7 (.date 1) [("menteeRating", .int 5)])
      ⟨connectionDoc 7 (.date 0) [], List.mem_singleton.mpr rfl, rfl⟩⟩

/-! ## Insertion with the built-in `_id` index -/

theorem insertOne_eq_ok (c : Collection) (d : Doc) (c' : Collection) :
    c.insertOne d = .ok c' ↔
      validId (getField d "_id") = true ∧
      violatesUnique idIndex c.docs (assignId c.docs d) = false ∧
      c.insert (assignId c.docs d) = .ok c' := by
  unfold Collection.insertOne
  cases hvalid : validId (getField d "_id") with
  | false =>
    simp only [if_true, reduceCtorEq, false_and]
  | true =>
    simp only [reduceCtorEq, if_false, true_and]
    cases hins : Collection.insert ⟨c.validator, idIndex :: c.indexes, c.docs⟩
        (assignId c.docs d) with
    | error e =>
      simp only [reduceCtorEq, false_iff, not_and]
      intro hid hok
      obtain ⟨h1, h2, -⟩ := (insert_eq_ok c _ c').mp hok
      have : Collection.insert ⟨c.validator, idIndex :: c.indexes, c.docs⟩
          (assignId c.docs d) = .ok ⟨c.validator, idIndex :: c.indexes,
            c.docs ++ [assignId c.docs d]⟩ := by
        rw [insert_eq_ok]
        refine ⟨h1, ?_, rfl⟩
        intro ix hix
        rcases List.mem_cons.mp hix with h | h
        · rw [h]; exact hid
        · exact h2 ix h
      rw [hins] at this
      cases this
    | ok c1 =>
      obtain ⟨h1, h2, h3⟩ := (insert_eq_ok _ _ c1).mp hins
      have hid : violatesUnique idIndex c.docs (assignId c.docs d) = false :=
        h2 idIndex (List.mem_cons_self _ _)
      have hrest : ∀ ix ∈ c.indexes, violatesUnique ix c.docs (assignId c.docs d) = false :=
        fun ix hix => h2 ix (List.mem_cons_of_mem _ hix)
      have hok : c.insert (assignId c.docs d) =
          .ok ⟨c.validator, c.indexes, c.docs ++ [assignId c.docs d]⟩ := by
        rw [insert_eq_ok]
        exact ⟨h1, hrest, rfl⟩
      subst h3
      rw [hok]
      dsimp only
      constructor
      · intro h
        exact ⟨hid, h⟩
      · rintro ⟨-, h⟩
        exact h

theorem insertOne_ok_insert (c : Collection) (d : Doc) (c' : Collection)
    (h : c.insertOne d = .ok c') : c.insert (assignId c.docs d) = .ok c' :=
  ((insertOne_eq_ok c d c').mp h).2.2

theorem getField_assignId (docs : List Doc) (d : Doc) (n : String) (hn : n ≠ "_id") :
    getField (assignId docs d) n = getField d n := by
  unfold assignId
  cases getField d "_id" with
  | some v => rfl
  | none =>
    dsimp only
    rw [getField_cons, if_neg hn]

theorem accepts_users_assignId (docs : List Doc) (d : Doc) :
    accepts usersSchema (assignId docs d) = accepts usersSchema d := by
  rw [Bool.eq_iff_iff, accepts_users_iff, accepts_users_iff]
  simp only [getField_assignId docs d _ (by decide : "username" ≠ "_id"),
    getField_assignId docs d _ (by decide : "email" ≠ "_id"),
    getField_assignId docs d _ (by decide : "password" ≠ "_id"),
    getField_assignId docs d _ (by decide : "fullname" ≠ "_id"),
    getField_assignId docs d _ (by decide : "role" ≠ "_id"),
    getField_assignId docs d _ (by decide : "isVerified" ≠ "_id"),
    getField_assignId docs d _ (by decide : "displayName" ≠ "_id"),
    getField_assignId docs d _ (by decide : "isAnonymous" ≠ "_id"),
    getField_assignId docs d _ (by decide : "isMentor" ≠ "_id"),
    getField_assignId docs d _ (by decide : "isMentee" ≠ "_id"),
    getField_assignId docs d _ (by decide : "mentorshipTopics" ≠ "_id"),
    getField_assignId docs d _ (by decide : "availableForMentoring" ≠ "_id")]

theorem bsonEq_objectId_right (k : BVal) (j : Nat) (h : bsonEq k (.objectId j) = true) :
    k = .objectId j := by
  cases k <;> simp [bsonEq, BVal.toNum] at h
  rw [h]

theorem le_foldr_max (l : List Nat) (x : Nat) (hx : x ∈ l) : x ≤ l.foldr max 0 := by
  induction l with
  | nil => cases hx
  | cons y ys ih =>
    rw [List.foldr_cons]
    rcases List.mem_cons.mp hx with h | h
    · rw [h]; exact Nat.le_max_left _ _
    · exact Nat.le_trans (ih h) (Nat.le_max_right _ _)

theorem keysClash_freshId (docs : List Doc) (e d : Doc) (he : e ∈ docs) :
    keysClash idIndex e (("_id", .objectId (freshId docs)) :: d) = false := by
  have hkey : ∀ k ∈ fieldKeys (getField e "_id"),
      bsonEq k (.objectId (freshId docs)) = false := by
    intro k hk
    cases hb : bsonEq k (.objectId (freshId docs)) with
    | false => rfl
    | true =>
      exfalso
      have hk' := bsonEq_objectId_right k _ hb
      subst hk'
      have hmem : freshId docs ∈ storedObjectIds docs := by
        unfold storedObjectIds
        rw [List.mem_flatMap]
        refine ⟨e, he, ?_⟩
        rw [List.mem_filterMap]
        exact ⟨_, hk, rfl⟩
      have := le_foldr_max _ _ hmem
      unfold freshId at this
      omega
  simp only [keysClash, indexKeys, idIndex, List.all_cons, List.all_nil, Bool.and_true,
    getField_cons, if_true, Option.isNone_some, Bool.false_and, Bool.false_eq_true, if_false,
    List.map_cons, List.map_nil, fieldKeys, tuples, List.flatMap_cons, List.flatMap_nil,
    List.append_nil, List.any_cons, List.any_nil, Bool.or_false]
  rw [List.any_eq_false]
  intro t ht
  rw [List.mem_flatMap] at ht
  obtain ⟨k, hk, hkt⟩ := ht
  simp only [List.map_cons, List.map_nil, List.mem_singleton] at hkt
  subst hkt
  simp [bsonEqElems, hkey k hk]

theorem violatesUnique_assignId (docs : List Doc) (d : Doc)
    (h : getField d "_id" = none ∨ ∀ e ∈ docs, keysClash idIndex e d = false) :
    violatesUnique idIndex docs (assignId docs d) = false := by
  rw [violatesUnique_false_iff _ _ _ rfl]
  intro e he
  cases hid : getField d "_id" with
  | none =>
    have : assignId docs d = ("_id", .objectId (freshId docs)) :: d := by
      unfold assignId; rw [hid]
    rw [this]
    exact keysClash_freshId docs e d he
  | some v =>
    have : assignId docs d = d := by
      unfold assignId; rw [hid]
    rw [this]
    rcases h with h | h
    · rw [hid] at h; cases h
    · exact h e he

theorem reachable_insertOne (c0 c c' : Collection) (d : Doc) (h : Reachable c0 c)
    (hins : c.insertOne d = .ok c') : Reachable c0 c' :=
  Reachable.insert (assignId c.docs d) h (insertOne_ok_insert c d c' hins)

theorem users_insertOne_ok (c : Collection) (d : Doc)
    (hv : c.validator = some usersSchema) (hi : c.indexes = usersCollection.indexes)
    (hdocs : ∀ e ∈ c.docs, accepts usersSchema e = true)
    (hd : accepts usersSchema d = true)
    (hn : getField d "displayName" = none)
    (hfresh : ∀ e ∈ c.docs, getField e "username" ≠ getField d "username" ∧
      getField e "email" ≠ getField d "email")
    (hid : getField d "_id" = none ∨
      (validId (getField d "_id") = true ∧ ∀ e ∈ c.docs, keysClash idIndex e d = false)) :
    c.insertOne d = .ok ⟨c.validator, c.indexes, c.docs ++ [assignId c.docs d]⟩ := by
  rw [insertOne_eq_ok]
  refine ⟨?_, ?_, ?_⟩
  · rcases hid with h | h
    · rw [h]; rfl
    · exact h.1
  · apply violatesUnique_assignId
    rcases hid with h | h
    · exact Or.inl h
    · exact Or.inr h.2
  · rw [users_insert_iff c _ _ hv hi hdocs]
    rw [accepts_users_assignId, getField_assignId _ _ _ (by decide : "username" ≠ "_id"),
      getField_assignId _ _ _ (by decide : "email" ≠ "_id"),
      getField_assignId _ _ _ (by decide : "displayName" ≠ "_id")]
    exact ⟨hd, fun e he => (hfresh e he).1, fun e he => (hfresh e he).2,
      fun _ _ => Or.inl hn, rfl⟩

/-- C5, counterexample: two accepted user documents without `displayName`, with
different `username` and `email`, that both carry the `_id` 1; the first is
inserted, the second is refused by the built-in unique index on `_id`. -/
theorem users_displayName_same_id_counterexample :
    accepts usersSchema (("_id", .int 1) :: sampleUser) = true ∧
    accepts usersSchema (("_id", .int 1) :: otherUser) = true ∧
    getField (("_id", .int 1) :: sampleUser) "displayName" = none ∧
    getField (("_id", .int 1) :: otherUser) "displayName" = none ∧
    getField (("_id", .int 1) :: sampleUser) "username" ≠
      getField (("_id", .int 1) :: otherUser) "username" ∧
    getField (("_id", .int 1) :: sampleUser) "email" ≠
      getField (("_id", .int 1) :: otherUser) "email" ∧
    usersCollection.insertOne (("_id", .int 1) :: sampleUser) =
      .ok ⟨usersCollection.validator, usersCollection.indexes,
        [("_id", .int 1) :: sampleUser]⟩ ∧
    Collection.insertOne
      ⟨usersCollection.validator, usersCollection.indexes, [("_id", .int 1) :: sampleUser]⟩
      (("_id", .int 1) :: otherUser) = .error (.duplicateKey idIndex) :=
  ⟨by decide, by decide, rfl, rfl,
    fun h => by
      injection h with h
      injection h with h
      exact absurd h (by decide),
    fun h => by
      injection h with h
      injection h with h
      exact absurd h (by decide),
    rfl, rfl⟩

/-- C5, as amended: the unique index on `displayName` is sparse.  Two accepted
user documents that both omit `displayName`, differ in `username` and `email`,
and whose `_id`, where they carry one, is admissible and clashes with the `_id`
of no stored document nor with each other's, can both be inserted, one after
the other, into any reachable state whose stored documents share no `username`
or `email` with them (a document without `_id` is stored under a new
ObjectId); in any reachable state an insert whose `displayName` is present and
equal to that of a stored document is rejected; and an accepted document has
either no `displayName` or a string one, never a null. -/
theorem users_displayName_sparse_unique (c : Collection) (a b : Doc)
    (hc : Reachable usersCollection c)
    (ha : accepts usersSchema a = true) (hb : accepts usersSchema b = true)
    (hna : getField a "displayName" = none) (hnb : getField b "displayName" = none)
    (hu : getField a "username" ≠ getField b "username")
    (he : getField a "email" ≠ getField b "email")
    (hfresh : ∀ e ∈ c.docs, ∀ x ∈ [a, b],
      getField e "username" ≠ getField x "username" ∧
      getField e "email" ≠ getField x "email")
    (hida : getField a "_id" = none ∨
      (validId (getField a "_id") = true ∧ ∀ e ∈ c.docs, keysClash idIndex e a = false))
    (hidb : getField b "_id" = none ∨
      (validId (getField b "_id") = true ∧
        ∀ e ∈ c.docs ++ [assignId c.docs a], keysClash idIndex e b = false)) :
    (∃ c1 c2, c.insertOne a = .ok c1 ∧ c1.insertOne b = .ok c2 ∧
      c2.docs = c.docs ++ [assignId c.docs a, assignId (c.docs ++ [assignId c.docs a]) b] ∧
      Reachable usersCollection c2) ∧
    (∀ (d : Doc) (v : BVal), getField d "displayName" = some v →
      (∃ e ∈ c.docs, getField e "displayName" = some v) →
      (∃ err, c.insertOne d = .error err) ∧ ∃ err, c.insert d = .error err) ∧
    (∀ d : Doc, accepts usersSchema d = true →
      getField d "displayName" = none ∨
      ∃ s, getField d "displayName" = some (.string s)) := by
  obtain ⟨hv, hi, hdocs⟩ := users_reachable_shape c hc
  refine ⟨?_, ?_, ?_⟩
  · have h1 := users_insertOne_ok c a hv hi hdocs ha hna
      (fun e hem => hfresh e hem a (by simp)) hida
    have hdocs1 : ∀ e ∈ c.docs ++ [assignId c.docs a], accepts usersSchema e = true := by
      intro e hem
      rcases List.mem_append.mp hem with h | h
      · exact hdocs e h
      · rw [List.mem_singleton.mp h, accepts_users_assignId]; exact ha
    have h2 := users_insertOne_ok ⟨c.validator, c.indexes, c.docs ++ [assignId c.docs a]⟩ b
      hv hi hdocs1 hb hnb
      (by
        intro e hem
        rcases List.mem_append.mp hem with h | h
        · exact hfresh e h b (by simp)
        · rw [List.mem_singleton.mp h,
            getField_assignId _ _ _ (by decide : "username" ≠ "_id"),
            getField_assignId _ _ _ (by decide : "email" ≠ "_id")]
          exact ⟨hu, he⟩)
      hidb
    refine ⟨_, _, h1, h2, by simp, ?_⟩
    exact reachable_insertOne _ _ _ b (reachable_insertOne _ _ _ a hc h1) h2
  · rintro d v hdv ⟨e, hem, hev⟩
    have hno : ∀ x : Doc, getField x "displayName" = some v → ∀ c', c.insert x ≠ .ok c' := by
      intro x hx c' hins
      obtain ⟨-, -, -, h3, -⟩ := (users_insert_iff c x c' hv hi hdocs).mp hins
      rcases h3 e hem with h | h
      · rw [hx] at h; cases h
      · exact h (by rw [hev, hx])
    constructor
    · cases hone : c.insertOne d with
      | error err => exact ⟨err, rfl⟩
      | ok c' =>
        exfalso
        refine hno (assignId c.docs d) ?_ c' (insertOne_ok_insert c d c' hone)
        rw [getField_assignId _ _ _ (by decide : "displayName" ≠ "_id")]
        exact hdv
    · exact insert_error_of_not_ok c d (hno d hdv)
  · intro d hd
    obtain ⟨-, -, -, -, -, -, h7, -⟩ := (accepts_users_iff d).mp hd
    cases hdn : getField d "displayName" with
    | none => exact Or.inl rfl
    | some v =>
      obtain ⟨s, rfl, -⟩ := h7 v hdn
      exact Or.inr ⟨s, rfl⟩

/-- Witness for C5 as amended: the scenario user and a second user, neither
with a display name nor an `_id`, inserted into the freshly provisioned
collection. -/
theorem users_displayName_sparse_unique_witness :
    Reachable usersCollection usersCollection ∧
    accepts usersSchema sampleUser = true ∧ accepts usersSchema otherUser = true ∧
    getField sampleUser "displayName" = none ∧ getField otherUser "displayName" = none ∧
    getField sampleUser "username" ≠ getField otherUser "username" ∧
    getField sampleUser "email" ≠ getField otherUser "email" ∧
    (∀ e ∈ usersCollection.docs, ∀ x ∈ [sampleUser, otherUser],
      getField e "username" ≠ getField x "username" ∧
      getField e "email" ≠ getField x "email") ∧
    getField sampleUser "_id" = none ∧ getField otherUser "_id" = none ∧
    (∃ c1 c2, usersCollection.insertOne sampleUser = .ok c1 ∧
      c1.insertOne otherUser = .ok c2 ∧
      c2.docs = usersCollection.docs ++
        [assignId usersCollection.docs sampleUser,
          assignId (usersCollection.docs ++ [assignId usersCollection.docs sampleUser])
            otherUser] ∧
      Reachable usersCollection c2) :=
  have hu : getField sampleUser "username" ≠ getField otherUser "username" := by
    intro h
    injection h with h
    injection h with h
    exact absurd h (by decide)
  have he : getField sampleUser "email" ≠ getField otherUser "email" := by
    intro h
    injection h with h
    injection h with h
    exact absurd h (by decide)
  ⟨Reachable.start, by decide, by decide, rfl, rfl, hu, he,
    fun e hem => absurd hem (List.not_mem_nil e), rfl, rfl,
    (users_displayName_sparse_unique usersCollection sampleUser otherUser Reachable.start
      (by decide) (by decide) rfl rfl hu he
      (fun e hem => absurd hem (List.not_mem_nil e)) (Or.inl rfl) (Or.inl rfl)).1⟩

end ShareSpace
